import Mathlib

/-!
# Authentication and session identity of the medicine-app server

A shallow embedding of `server/index.js` (and of the two auth routes of
`server/about.js`): the `User` model with its schema setters, validators and
`pre("save")` hook, the `auth` middleware, the route handlers of the auth and
of the data routes, and the global error handler.

Conventions of the embedding.

* A JavaScript string is the list of its code points (`Str`); its `length`, a
  number of UTF-16 code units, is `jsLength`.  `trim` removes the white space
  and the line terminators of ECMAScript.  The case mappings `toLowerCase` and
  `toUpperCase` are those of the Unicode tables of the engine, which are not
  part of the repository: they are the fields of a parameter `JsEngine`, and
  every general statement holds for every engine.
* A request-body field that the handlers read as a string is `Option Str`:
  `none` stands for a field that is missing (`undefined`) or `null`.
* Asynchronous calls that may reject (`findOne`, `findById`, `save`,
  `bcrypt.hash`, `bcrypt.compare`) return `Except Err _`; whether the store or
  the hasher is failing is read from the per-request environment `Env`.
* `try { ... } catch` is a `match` on the `Except` value of the body.
* The libraries are modelled symbolically: a bcrypt digest records cost, salt
  and the hashed text, and two texts match when they give the same 72 bytes of
  key material; a signed token records its claims and the key it was signed
  with, and is turned into a string by a `JwtCodec`.
* Mongoose is taken as in its versions 5 and later: the setters of a schema path
  (`lowercase`, `trim`) run when a document is built and when a query filter is
  cast; `save()` validates the document, then runs the `pre("save")` hooks, then
  writes; the `required` validator of a string rejects the empty string, that of
  an array accepts the empty array.
* An `ObjectId` is a natural number; a clock value is a number of seconds.
-/

namespace MedicineApp

/-! ## Strings -/

/-- A JavaScript string. -/
abbrev Str := List Char

/-- The method `String.prototype.replace(pat, rep)` with a string pattern: the
first occurrence of `pat` is replaced, the rest of the string is kept. -/
def jsReplace (pat rep : Str) : Str → Str
  | [] => if pat = [] then rep else []
  | c :: cs =>
    if pat.isPrefixOf (c :: cs) then rep ++ (c :: cs).drop pat.length
    else c :: jsReplace pat rep cs

/-- The property `length` of a string: its number of UTF-16 code units, two for
a code point above `U+FFFF`. -/
def jsLength : Str → Nat
  | [] => 0
  | c :: cs => (if c.toNat < 0x10000 then 1 else 2) + jsLength cs

/-- The code points that `trim()` removes: the `WhiteSpace` and `LineTerminator`
of ECMAScript (TAB, LF, VT, FF, CR, SP, NBSP, the space separators of Unicode,
LS, PS and the byte order mark). -/
def jsIsWhiteSpace (c : Char) : Bool :=
  c.toNat == 0x09 || c.toNat == 0x0A || c.toNat == 0x0B || c.toNat == 0x0C ||
  c.toNat == 0x0D || c.toNat == 0x20 || c.toNat == 0xA0 || c.toNat == 0x1680 ||
  (decide (0x2000 ≤ c.toNat) && decide (c.toNat ≤ 0x200A)) ||
  c.toNat == 0x2028 || c.toNat == 0x2029 || c.toNat == 0x202F || c.toNat == 0x205F ||
  c.toNat == 0x3000 || c.toNat == 0xFEFF

/-- Removal of leading white space. -/
def trimStart (s : Str) : Str := s.dropWhile jsIsWhiteSpace

/-- The method `String.prototype.trim()`. -/
def trim (s : Str) : Str := (trimStart (trimStart s).reverse).reverse

/-- The case mappings of the JavaScript engine: the methods
`String.prototype.toLowerCase()` and `String.prototype.toUpperCase()`, which
follow the Unicode tables of the engine. -/
structure JsEngine where
  toLowerCase : Str → Str
  toUpperCase : Str → Str

/-- The setters of `userSchema.email` (`lowercase: true, trim: true`).  Mongoose
runs the setters of a path from the last declared to the first, so the value is
trimmed and then lower-cased. -/
def normalizeEmail (E : JsEngine) (s : Str) : Str := E.toLowerCase (trim s)

/-! ## Errors, environment -/

/-- What an awaited call can reject with (or a statement can throw). -/
inductive Err
  | store        -- the database call itself failed
  | validation   -- a schema validator (`required`, `minlength`) failed
  | duplicateKey -- a unique index rejected the insert
  | hashing      -- `bcrypt.hash` or `bcrypt.compare` failed
  | token        -- `jwt.verify` threw
  | typeError    -- a JavaScript `TypeError`
  deriving DecidableEq, Repr

/-- Everything outside the request and the store that one request reads. -/
structure Env where
  /-- The variable `process.env.JWT_SECRET`. -/
  JWT_SECRET : Option Str
  /-- The variable `process.env.NODE_ENV`. -/
  NODE_ENV : Option Str
  /-- The clock, in seconds since the epoch. -/
  now : Nat
  /-- The `_id` that `new Model(...)` generates. -/
  newId : Nat
  /-- The salt that `bcrypt.hash` generates. -/
  salt : Nat
  /-- Queries (`findOne`, `findById`) reject. -/
  findFails : Bool
  /-- The hashing library rejects. -/
  hashFails : Bool
  /-- The call to the store that `save()` makes rejects. -/
  saveFails : Bool
  deriving DecidableEq, Repr

/-- The signing key embedded in the source: `"your-secret-key"`. -/
def fallbackSecret : Str := "your-secret-key".toList

/-- The expression `process.env.JWT_SECRET || "your-secret-key"`. -/
def jwtSecret (env : Env) : Str :=
  match env.JWT_SECRET with
  | none => fallbackSecret
  | some k => if k = [] then fallbackSecret else k

/-! ## Password hashing (bcryptjs) -/

/-- The content of a `password` field: the text as submitted, or the digest
`bcrypt.hash(p, cost)` computed with some salt. -/
inductive Password
  | plain (p : Str)
  | bcrypt (cost salt : Nat) (p : Str)
  deriving DecidableEq, Repr

/-- The call `bcrypt.hash(p, 8)`. -/
def bcryptHash (env : Env) (p : Str) (cost : Nat) : Except Err Password :=
  if env.hashFails then .error .hashing else .ok (.bcrypt cost env.salt p)

/-- The UTF-8 encoding of a code point. -/
def utf8Bytes (c : Char) : List Nat :=
  if c.toNat < 0x80 then [c.toNat]
  else if c.toNat < 0x800 then [0xC0 + c.toNat / 64, 0x80 + c.toNat % 64]
  else if c.toNat < 0x10000 then
    [0xE0 + c.toNat / 4096, 0x80 + c.toNat / 64 % 64, 0x80 + c.toNat % 64]
  else
    [0xF0 + c.toNat / 262144, 0x80 + c.toNat / 4096 % 64, 0x80 + c.toNat / 64 % 64,
     0x80 + c.toNat % 64]

/-- The key material that bcrypt takes from a text: the 72 bytes read
cyclically from its UTF-8 encoding followed by a zero byte.  Nothing else of
the text enters the digest. -/
def bcryptKey (p : Str) : List Nat :=
  (List.range 72).map (fun i =>
    (p.flatMap utf8Bytes ++ [0]).getD (i % (p.flatMap utf8Bytes ++ [0]).length) 0)

/-- The call `bcrypt.compare(candidate, stored)`: rejects when the candidate is
not a string, is false when `stored` is not a digest, and otherwise is true
when candidate and hashed text give the same key material. -/
def bcryptCompare (env : Env) (candidate : Option Str) (stored : Password) :
    Except Err Bool :=
  if env.hashFails then .error .hashing
  else match candidate with
    | none => .error .hashing
    | some c =>
      match stored with
      | .plain _ => .ok false
      | .bcrypt _ _ p => .ok (decide (bcryptKey c = bcryptKey p))

/-! ## The User model -/

/-- A persisted document of the `User` model. -/
structure User where
  _id : Nat
  email : Str
  password : Password
  name : Str
  createdAt : Nat
  deriving DecidableEq, Repr

/-- A document as built by `new User({ email, password, name })`, before
validation: fields may be missing. -/
structure UserDoc where
  _id : Nat
  email : Option Str
  password : Option Str
  name : Option Str
  createdAt : Nat
  deriving DecidableEq, Repr

/-- A user as returned by `.select("-password")`. -/
structure UserNoPassword where
  _id : Nat
  email : Str
  name : Str
  createdAt : Nat
  deriving DecidableEq, Repr

/-- A document of the `Journal` model. -/
structure Journal where
  _id : Nat
  email : Str
  medicine : Str
  intention : Str
  experienceDate : Str
  currentState : Str
  postExperience : Str
  createdAt : Nat
  deriving DecidableEq, Repr

/-- A document of the `MuscleSelection` model. -/
structure MuscleSelection where
  _id : Nat
  email : Str
  selectedMuscles : List Str
  createdAt : Nat
  /-- The version key of Mongoose. -/
  __v : Nat
  deriving DecidableEq, Repr

/-- A document of the `PostExperience` model. -/
structure PostExperience where
  _id : Nat
  email : Str
  postExperience : Str
  createdAt : Nat
  deriving DecidableEq, Repr

/-- A question with its answer, as stored in `responses` and `questionAnswers`. -/
structure QuestionAnswer where
  question : Str
  answer : Str
  deriving DecidableEq, Repr

/-- A document of the `OnboardingQuestion` model. -/
structure OnboardingQuestion where
  _id : Nat
  email : Str
  responses : List QuestionAnswer
  createdAt : Nat
  deriving DecidableEq, Repr

/-- An element of `levels` in a `Journey` document. -/
structure Level where
  title : Str
  questionAnswers : List QuestionAnswer
  deriving DecidableEq, Repr

/-- A document of the `Journey` model. -/
structure Journey where
  _id : Nat
  email : Str
  levels : List Level
  createdAt : Nat
  deriving DecidableEq, Repr

/-- A document of the `Audio` model. -/
structure Audio where
  _id : Nat
  email : Str
  audio : Str
  createdAt : Nat
  deriving DecidableEq, Repr

/-- The database: one list of documents per collection, in insertion order. -/
structure Db where
  users : List User
  journals : List Journal
  muscleSelections : List MuscleSelection
  postExperiences : List PostExperience
  onboardingQuestions : List OnboardingQuestion
  journeys : List Journey
  audios : List Audio
  deriving DecidableEq, Repr

/-- The call `new User({ email, password, name })`: the setters of `email` are
applied, `_id` and `createdAt` get their defaults. -/
def newUser (E : JsEngine) (env : Env) (email password name : Option Str) : UserDoc :=
  { _id := env.newId
    email := email.map (normalizeEmail E)
    password := password
    name := name
    createdAt := env.now }

/-- The query `User.findOne({ email })`.  The filter is cast through the
schema, which applies the setters of `email`; a missing email matches no
document, every stored user having one. -/
def User.findOne (E : JsEngine) (env : Env) (db : Db) (email : Option Str) :
    Except Err (Option User) :=
  if env.findFails then .error .store
  else match email with
    | none => .ok none
    | some e => .ok (db.users.find? (fun u => decide (u.email = normalizeEmail E e)))

/-- The query `User.findById(id).select("-password")`. -/
def User.findById (env : Env) (db : Db) (id : Nat) :
    Except Err (Option UserNoPassword) :=
  if env.findFails then .error .store
  else .ok ((db.users.find? (fun u => decide (u._id = id))).map
    (fun u => { _id := u._id, email := u.email, name := u.name, createdAt := u.createdAt }))

/-- The validator `required: true` of a string path: present and not empty. -/
def required (v : Option Str) : Option Str :=
  match v with
  | none => none
  | some s => if s = [] then none else some s

/-- The call `user.save()` on a new document: schema validation (`required`
on the three paths, `minlength: 6` on the `length` of the password), then the
`pre("save")` hook that replaces the password by its digest of cost 8, then the
insert, which the unique indexes on `_id` and `email` can reject. -/
def UserDoc.save (env : Env) (db : Db) (doc : UserDoc) : Except Err (User × Db) :=
  match required doc.email, required doc.password, required doc.name with
  | some email, some password, some name =>
    if jsLength password < 6 then .error .validation
    else match bcryptHash env password 8 with
      | .error e => .error e
      | .ok digest =>
        if env.saveFails then .error .store
        else if db.users.any (fun u => decide (u._id = doc._id) || decide (u.email = email))
        then .error .duplicateKey
        else
          let user : User :=
            { _id := doc._id, email := email, password := digest, name := name
              createdAt := doc.createdAt }
          .ok (user, { db with users := db.users ++ [user] })
  | _, _, _ => .error .validation

/-- The method `user.comparePassword(candidate)`. -/
def User.comparePassword (env : Env) (user : User) (candidate : Option Str) :
    Except Err Bool :=
  bcryptCompare env candidate user.password

/-! ## Tokens (jsonwebtoken) -/

/-- The payload passed to `jwt.sign`: `{ userId, email }` in `index.js`,
`{ userId }` in `about.js`. -/
structure JwtPayload where
  userId : Nat
  email : Option Str
  deriving DecidableEq, Repr

/-- A signed token, symbolically: the payload, the registered claims `iat` and
`exp` (seconds), and the key of the signature. -/
structure Jwt where
  payload : JwtPayload
  iat : Nat
  exp : Nat
  key : Str
  deriving DecidableEq, Repr

/-- The compact serialisation of tokens: `decode` fails on strings that are not
tokens and inverts `encode`; a token is never the empty string. -/
structure JwtCodec where
  encode : Jwt → Str
  decode : Str → Option Jwt
  decode_encode : ∀ t, decode (encode t) = some t
  encode_ne_nil : ∀ t, encode t ≠ []

/-- The time span `"7d"` in milliseconds, as the `ms` package reads it. -/
def ms7d : Nat := 7 * 24 * 60 * 60 * 1000

/-- The call `jwt.sign(payload, key, { expiresIn: "7d" })` at time `now`:
`iat` is the clock and `exp = iat + ms("7d") / 1000`. -/
def jwtSign (J : JwtCodec) (payload : JwtPayload) (key : Str) (now : Nat) : Str :=
  J.encode { payload := payload, iat := now, exp := now + ms7d / 1000, key := key }

/-- The call `jwt.verify(token, key)` at time `now`: throws on a malformed
token, on a signature made with another key, and once `now ≥ exp`. -/
def jwtVerify (J : JwtCodec) (token key : Str) (now : Nat) : Except Err Jwt :=
  match J.decode token with
  | none => .error .token
  | some t =>
    if t.key ≠ key then .error .token
    else if t.exp ≤ now then .error .token
    else .ok t

/-! ## Requests, responses -/

/-- A value inside a JSON object of a response. -/
inductive JVal
  | str (s : Str)
  | num (n : Nat)
  | password (p : Password)
  | strs (l : List Str)
  | answers (l : List QuestionAnswer)
  | levels (l : List Level)
  deriving DecidableEq, Repr

/-- A flat JSON object: its fields in order. -/
abbrev JObj := List (String × JVal)

/-- Whether the object has a field of that name. -/
def JObj.hasField (o : JObj) (k : String) : Bool := o.any (fun f => decide (f.1 = k))

/-- The identity that `auth` attaches as `req.user`. -/
structure Identity where
  userId : Nat
  email : Str
  name : Str
  deriving DecidableEq, Repr

/-- The body passed to `res.json`. -/
inductive Body
  /-- The body `{ message }`. -/
  | message (m : Str)
  /-- The body `{ error: error.message }`. -/
  | error (e : Err)
  /-- The body `{ token, user }`. -/
  | session (token : Str) (user : JObj)
  /-- The body `req.user`. -/
  | identity (i : Identity)
  /-- The body `{ message, data }`. -/
  | saved (m : Str) (data : JObj)
  /-- The body `{ message, stack }` of `errorHandler`; `none` is `null`. -/
  | failure (m : Str) (stack : Option Str)
  deriving DecidableEq, Repr

/-- A response written by `res.status(..).json(..)`. -/
structure Response where
  status : Nat
  body : Body
  deriving DecidableEq, Repr

/-- The token of a response body, when it has one. -/
def Body.token? : Body → Option Str
  | .session t _ => some t
  | _ => none

/-- The `user` object of a response body, when it has one. -/
def Body.user? : Body → Option JObj
  | .session _ u => some u
  | _ => none

/-- What a middleware or handler has done to one request so far: the responses
written, the number of calls of `next`, and `req.user`. -/
structure Ctx where
  responses : List Response
  nextCalls : Nat
  user : Option Identity
  deriving DecidableEq, Repr

/-- A fresh request: nothing written, `next` not called, `req.user` unset. -/
def Ctx.init : Ctx := { responses := [], nextCalls := 0, user := none }

/-- The call `res.status(status).json(body)`. -/
def Ctx.send (c : Ctx) (status : Nat) (body : Body) : Ctx :=
  { c with responses := c.responses ++ [{ status := status, body := body }] }

/-- The call `next()`. -/
def Ctx.next (c : Ctx) : Ctx := { c with nextCalls := c.nextCalls + 1 }

/-! ## The auth middleware of index.js -/

/-- The expression `req.header("Authorization")?.replace("Bearer ", "")`. -/
def extractToken (header : Option Str) : Option Str :=
  header.map (jsReplace "Bearer ".toList [])

/-- The test `!token`: `undefined` and the empty string are falsy. -/
def noToken (token : Option Str) : Bool :=
  match token with
  | none => true
  | some t => t.isEmpty

def msgNoToken : Str := "No auth token found. Please log in.".toList
def msgInvalidToken : Str := "Invalid or expired token. Please log in again.".toList
def msgUserNotFound : Str := "User not found".toList

/-- The body of the `try` block of `auth` once a token is there: verification,
the lookup of the user, and either the 404 response or `req.user` and `next()`. -/
def authTry (J : JwtCodec) (env : Env) (db : Db) (token : Str) (c : Ctx) : Except Err Ctx :=
  match jwtVerify J token (jwtSecret env) env.now with
  | .error e => .error e
  | .ok decoded =>
    match User.findById env db decoded.payload.userId with
    | .error e => .error e
    | .ok none => .ok (c.send 404 (.message msgUserNotFound))
    | .ok (some user) =>
      .ok ({ c with user := some { userId := user._id, email := user.email, name := user.name } }).next

/-- The middleware `auth` of `server/index.js`, on the value of the
`Authorization` header (`none` when the header is absent). -/
def auth (J : JwtCodec) (env : Env) (db : Db) (header : Option Str) (c : Ctx) : Ctx :=
  let token := extractToken header
  if noToken token then c.send 401 (.message msgNoToken)
  else
    match authTry J env db (token.getD []) c with
    | .ok c' => c'
    | .error _ => c.send 401 (.message msgInvalidToken)

/-! ## Registration and login of index.js -/

/-- The JSON body of `POST /auth/register` and `POST /auth/login`. -/
structure Credentials where
  email : Option Str
  password : Option Str
  name : Option Str
  deriving DecidableEq, Repr

def msgUserExists : Str := "User already exists".toList
def msgRegisterError : Str := "Error registering user. Please try again later.".toList
def msgBadLogin : Str := "Invalid email or password!".toList
def msgLoginError : Str := "Error logging in. Please try again later.".toList

/-- The object `{ id: user._id, email: user.email, name: user.name }`. -/
def userView (user : User) : JObj :=
  [("id", .num user._id), ("email", .str user.email), ("name", .str user.name)]

/-- The `try` block of `POST /auth/register`. -/
def registerTry (J : JwtCodec) (E : JsEngine) (env : Env) (db : Db) (body : Credentials) :
    Except Err (Response × Db) :=
  match User.findOne E env db body.email with
  | .error e => .error e
  | .ok (some _) => .ok ({ status := 400, body := .message msgUserExists }, db)
  | .ok none =>
    match (newUser E env body.email body.password body.name).save env db with
    | .error e => .error e
    | .ok (user, db') =>
      let token := jwtSign J { userId := user._id, email := some user.email } (jwtSecret env) env.now
      .ok ({ status := 201, body := .session token (userView user) }, db')

/-- The handler of `POST /auth/register`: the response and the database after it. -/
def register (J : JwtCodec) (E : JsEngine) (env : Env) (db : Db) (body : Credentials) : Response × Db :=
  match registerTry J E env db body with
  | .ok r => r
  | .error _ => ({ status := 500, body := .message msgRegisterError }, db)

/-- The `try` block of `POST /auth/login`. -/
def loginTry (J : JwtCodec) (E : JsEngine) (env : Env) (db : Db) (body : Credentials) : Except Err Response :=
  match User.findOne E env db body.email with
  | .error e => .error e
  | .ok none => .ok { status := 401, body := .message msgBadLogin }
  | .ok (some user) =>
    match user.comparePassword env body.password with
    | .error e => .error e
    | .ok false => .ok { status := 401, body := .message msgBadLogin }
    | .ok true =>
      let token := jwtSign J { userId := user._id, email := some user.email } (jwtSecret env) env.now
      .ok { status := 200, body := .session token (userView user) }

/-- The handler of `POST /auth/login`. -/
def login (J : JwtCodec) (E : JsEngine) (env : Env) (db : Db) (body : Credentials) : Response :=
  match loginTry J E env db body with
  | .ok r => r
  | .error _ => { status := 500, body := .message msgLoginError }

/-- The route `GET /auth/me`: `auth`, then the handler `res.json(req.user)` when
`auth` has called `next`. -/
def authMe (J : JwtCodec) (env : Env) (db : Db) (header : Option Str) : Ctx :=
  let c := auth J env db header Ctx.init
  if c.nextCalls = 0 then c
  else match c.user with
    | some i => c.send 200 (.identity i)
    | none => c

/-! ## Registration and login of about.js -/

/-- The JSON form of a whole `User` document, as `res.json` serialises it. -/
def userJson (user : User) : JObj :=
  [("_id", .num user._id), ("email", .str user.email), ("password", .password user.password),
   ("name", .str user.name), ("createdAt", .num user.createdAt), ("__v", .num 0)]

/-- The handler of `POST /auth/register` in `server/about.js`. -/
def aboutRegister (J : JwtCodec) (E : JsEngine) (env : Env) (db : Db) (body : Credentials) : Response × Db :=
  match User.findOne E env db body.email with
  | .error e => ({ status := 400, body := .error e }, db)
  | .ok (some _) => ({ status := 400, body := .message "User already exists".toList }, db)
  | .ok none =>
    match (newUser E env body.email body.password body.name).save env db with
    | .error e => ({ status := 400, body := .error e }, db)
    | .ok (user, db') =>
      let token := jwtSign J { userId := user._id, email := none } (jwtSecret env) env.now
      ({ status := 201, body := .session token (userJson user) }, db')

/-- The handler of `POST /auth/login` in `server/about.js`. -/
def aboutLogin (J : JwtCodec) (E : JsEngine) (env : Env) (db : Db) (body : Credentials) : Response :=
  match User.findOne E env db body.email with
  | .error e => { status := 400, body := .error e }
  | .ok none => { status := 401, body := .message "Invalid credentials".toList }
  | .ok (some user) =>
    match user.comparePassword env body.password with
    | .error e => { status := 400, body := .error e }
    | .ok false => { status := 401, body := .message "Invalid credentials".toList }
    | .ok true =>
      let token := jwtSign J { userId := user._id, email := none } (jwtSecret env) env.now
      { status := 200, body := .session token (userJson user) }

/-! ## Dates -/

/-- The largest time value of a `Date`, in milliseconds: 8.64e15. -/
def maxTime : Int := 8640000000000000

/-- The constructor `new Date(s)` on a string: the engine's `Date.parse`, given
as `parseDate` (`none` for `NaN`), clipped to the range of time values.  The
result `none` is the invalid date, for which `getTime()` is `NaN`. -/
def newDate (parseDate : Str → Option Int) (s : Str) : Option Int :=
  match parseDate s with
  | none => none
  | some t => if -maxTime ≤ t ∧ t ≤ maxTime then some t else none

/-- Year, month (1 to 12) and day (1 to 31) of the proleptic Gregorian
calendar for a number of days since 1970-01-01. -/
def civilFromDays (days : Int) : Int × Nat × Nat :=
  let z := days + 719468
  let era := z / 146097
  let doe := (z - era * 146097).toNat
  let yoe := (doe - doe / 1460 + doe / 36524 - doe / 146096) / 365
  let doy := doe - (365 * yoe + yoe / 4 - yoe / 100)
  let mp := (5 * doy + 2) / 153
  let d := doy - (153 * mp + 2) / 5 + 1
  let m := if mp < 10 then mp + 3 else mp - 9
  let y := (yoe : Int) + era * 400 + (if m ≤ 2 then 1 else 0)
  (y, m, d)

/-- The last `width` decimal digits of `n`, highest first. -/
def padDigits : (width n : Nat) → Str
  | 0, _ => []
  | width + 1, n => padDigits width (n / 10) ++ [Nat.digitChar (n % 10)]

/-- The year of `toISOString()`: four digits from 0 to 9999, otherwise a sign
and six digits. -/
def isoYear (y : Int) : Str :=
  if 0 ≤ y ∧ y ≤ 9999 then padDigits 4 y.toNat
  else (if y < 0 then '-' else '+') :: padDigits 6 y.natAbs

/-- The expression `date.toISOString().split("T")[0]` for the time value `t`. -/
def isoDate (t : Int) : Str :=
  let ymd := civilFromDays (t / 86400000)
  isoYear ymd.1 ++ ['-'] ++ padDigits 2 ymd.2.1 ++ ['-'] ++ padDigits 2 ymd.2.2

/-! ## The protected routes of index.js -/

/-- A route `app.post(path, auth, handler)`: the handler runs when `auth` has
called `next`, with the identity that `auth` attached. -/
def protectedRoute (J : JwtCodec) (env : Env) (db : Db) (header : Option Str)
    (handler : Identity → Response × Db) : Ctx × Db :=
  let c := auth J env db header Ctx.init
  if c.nextCalls = 0 then (c, db)
  else match c.user with
    | none => (c, db)
    | some user => ((c.send (handler user).1.status (handler user).1.body), (handler user).2)

/-- The value of a field that passes a test `!field`: present and not empty. -/
def truthy (v : Option Str) : Option Str :=
  match v with
  | none => none
  | some s => if s = [] then none else some s

/-- The object `req.body.journalEntry`. -/
structure JournalEntry where
  medicine : Option Str
  intention : Option Str
  experienceDate : Option Str
  currentState : Option Str
  postExperience : Option Str
  deriving DecidableEq, Repr

/-- The JSON form of a `Journal` document. -/
def journalJson (j : Journal) : JObj :=
  [("email", .str j.email), ("medicine", .str j.medicine), ("intention", .str j.intention),
   ("experienceDate", .str j.experienceDate), ("currentState", .str j.currentState),
   ("postExperience", .str j.postExperience), ("_id", .num j._id),
   ("createdAt", .num j.createdAt), ("__v", .num 0)]

/-- The call `newJournal.save()`: validation of the required paths, then the insert. -/
def Journal.save (env : Env) (db : Db) (doc : Journal) : Except Err Db :=
  if doc.email = [] ∨ doc.medicine = [] ∨ doc.intention = [] ∨ doc.experienceDate = [] ∨
      doc.currentState = [] ∨ doc.postExperience = [] then .error .validation
  else if env.saveFails then .error .store
  else if db.journals.any (fun j => decide (j._id = doc._id)) then .error .duplicateKey
  else .ok { db with journals := db.journals ++ [doc] }

def msgAllFields : Str := "All fields are required.".toList
def msgInvalidDate : Str := "Invalid experience date.".toList
def msgJournalSaved : Str := "Journal entry saved successfully!".toList
def msgInternal : Str := "Internal server error".toList

/-- The `try` block of `POST /api/journal`.  Destructuring a missing
`journalEntry` throws a `TypeError`. -/
def journalTry (parseDate : Str → Option Int) (env : Env) (db : Db) (user : Identity)
    (journalEntry : Option JournalEntry) : Except Err (Response × Db) :=
  match journalEntry with
  | none => .error .typeError
  | some je =>
    match truthy je.medicine, truthy je.intention, truthy je.experienceDate,
        truthy je.currentState, truthy je.postExperience with
    | some medicine, some intention, some experienceDate, some currentState, some postExperience =>
      match newDate parseDate experienceDate with
      | none => .ok ({ status := 400, body := .message msgInvalidDate }, db)
      | some t =>
        let newJournal : Journal :=
          { _id := env.newId, email := user.email, medicine := medicine, intention := intention
            experienceDate := isoDate t, currentState := currentState
            postExperience := postExperience, createdAt := env.now }
        match newJournal.save env db with
        | .error e => .error e
        | .ok db' =>
          .ok ({ status := 201, body := .saved msgJournalSaved (journalJson newJournal) }, db')
    | _, _, _, _, _ => .ok ({ status := 400, body := .message msgAllFields }, db)

/-- The handler of `POST /api/journal`. -/
def journal (parseDate : Str → Option Int) (env : Env) (db : Db) (user : Identity)
    (journalEntry : Option JournalEntry) : Response × Db :=
  match journalTry parseDate env db user journalEntry with
  | .ok r => r
  | .error _ => ({ status := 500, body := .message msgInternal }, db)

/-- The route `POST /api/journal`. -/
def journalRoute (J : JwtCodec) (parseDate : Str → Option Int) (env : Env) (db : Db)
    (header : Option Str) (journalEntry : Option JournalEntry) : Ctx × Db :=
  protectedRoute J env db header (fun user => journal parseDate env db user journalEntry)

/-- The JSON form of a `PostExperience` document. -/
def postExperienceJson (d : PostExperience) : JObj :=
  [("email", .str d.email), ("postExperience", .str d.postExperience), ("_id", .num d._id),
   ("createdAt", .num d.createdAt), ("__v", .num 0)]

/-- The call `save()` on a new `PostExperience` document. -/
def PostExperience.save (env : Env) (db : Db) (doc : PostExperience) : Except Err Db :=
  if doc.email = [] ∨ doc.postExperience = [] then .error .validation
  else if env.saveFails then .error .store
  else if db.postExperiences.any (fun j => decide (j._id = doc._id)) then .error .duplicateKey
  else .ok { db with postExperiences := db.postExperiences ++ [doc] }

/-- The `try` block of `POST /api/savePostExperience`; of `journalEntry` only
the field `postExperience` is read. -/
def savePostExperienceTry (env : Env) (db : Db) (user : Identity)
    (journalEntry : Option JournalEntry) : Except Err (Response × Db) :=
  match journalEntry with
  | none => .error .typeError
  | some je =>
    match truthy je.postExperience with
    | none => .ok ({ status := 400, body := .message msgAllFields }, db)
    | some postExperience =>
      let newJournal : PostExperience :=
        { _id := env.newId, email := user.email, postExperience := postExperience
          createdAt := env.now }
      match newJournal.save env db with
      | .error e => .error e
      | .ok db' =>
        .ok ({ status := 201, body := .saved msgJournalSaved (postExperienceJson newJournal) }, db')

/-- The handler of `POST /api/savePostExperience`. -/
def savePostExperience (env : Env) (db : Db) (user : Identity)
    (journalEntry : Option JournalEntry) : Response × Db :=
  match savePostExperienceTry env db user journalEntry with
  | .ok r => r
  | .error _ => ({ status := 500, body := .message msgInternal }, db)

/-- The route `POST /api/savePostExperience`. -/
def savePostExperienceRoute (J : JwtCodec) (env : Env) (db : Db)
    (header : Option Str) (journalEntry : Option JournalEntry) : Ctx × Db :=
  protectedRoute J env db header (fun user => savePostExperience env db user journalEntry)

/-- An element of the array `selectedMuscles`: a string, or a JSON value of
another kind (number, boolean, null, array, object). -/
inductive MuscleElem
  | str (s : Str)
  | other
  deriving DecidableEq, Repr

/-- The array `validMuscles`. -/
def validMuscles : List Str :=
  ["CHEST", "OBLIQUES", "ABS", "BICEPS", "TRICEPS", "NECK", "FRONT_DELTOIDS", "HEAD",
   "ABDUCTORS", "QUADRICEPS", "KNEES", "CALVES", "FOREARM", "TRAPEZIUS", "BACK_DELTOIDS",
   "UPPER_BACK", "LOWER_BACK", "GLUTEAL", "HAMSTRING", "LEFT_SOLEUS", "RIGHT_SOLEUS"].map
    String.toList

/-- The call `muscle.trim().toUpperCase()`: a `TypeError` on a value that is
not a string. -/
def cleanMuscle (E : JsEngine) : MuscleElem → Except Err Str
  | .str s => .ok (E.toUpperCase (trim s))
  | .other => .error .typeError

/-- The call `selectedMuscles.map((muscle) => muscle.trim().toUpperCase())`. -/
def cleanMuscles (E : JsEngine) : List MuscleElem → Except Err (List Str)
  | [] => .ok []
  | m :: ms =>
    match cleanMuscle E m with
    | .error e => .error e
    | .ok c =>
      match cleanMuscles E ms with
      | .error e => .error e
      | .ok cs => .ok (c :: cs)

/-- The method `Array.prototype.join(sep)` on strings. -/
def jsJoin (sep : Str) : List Str → Str
  | [] => []
  | [s] => s
  | s :: t :: rest => s ++ sep ++ jsJoin sep (t :: rest)

/-- The JSON form of a `MuscleSelection` document. -/
def muscleSelectionJson (d : MuscleSelection) : JObj :=
  [("email", .str d.email), ("selectedMuscles", .strs d.selectedMuscles), ("_id", .num d._id),
   ("createdAt", .num d.createdAt), ("__v", .num d.__v)]

/-- The query `MuscleSelection.findOne({ email })`. -/
def MuscleSelection.findOne (env : Env) (db : Db) (email : Str) :
    Except Err (Option MuscleSelection) :=
  if env.findFails then .error .store
  else .ok (db.muscleSelections.find? (fun d => decide (d.email = email)))

/-- The call `save()` on a new `MuscleSelection` document. -/
def MuscleSelection.insert (env : Env) (db : Db) (doc : MuscleSelection) : Except Err Db :=
  if doc.email = [] then .error .validation
  else if env.saveFails then .error .store
  else if db.muscleSelections.any (fun d => decide (d._id = doc._id)) then .error .duplicateKey
  else .ok { db with muscleSelections := db.muscleSelections ++ [doc] }

/-- The statements `muscleSelection.selectedMuscles = cleanedMuscles` and
`muscleSelection.save()` on a document that was read from the store.  The
assignment marks the path as modified only when the new array differs from the
old one; `save()` validates and calls the store: for a modified array it sets
the array and increments the version key in the stored document of that `_id`,
for an unmodified document it only checks that the document is still there. -/
def MuscleSelection.update (env : Env) (db : Db) (found : MuscleSelection)
    (selectedMuscles : List Str) : Except Err (MuscleSelection × Db) :=
  if found.email = [] then .error .validation
  else if env.saveFails then .error .store
  else if selectedMuscles = found.selectedMuscles then .ok (found, db)
  else
    let doc : MuscleSelection :=
      { found with selectedMuscles := selectedMuscles, __v := found.__v + 1 }
    .ok (doc, { db with muscleSelections :=
      (db.muscleSelections.map (fun d => if d._id = found._id then doc else d)) })

def msgMusclesArray : Str := "Selected muscles must be an array.".toList
def msgNotAuthenticated : Str := "User not authenticated. Please log in.".toList
def msgMusclesSaved : Str := "Muscles saved successfully!".toList

/-- The `try` block of `POST /api/save-muscles`; `selectedMuscles` is `none`
when the field is missing or is not an array. -/
def saveMusclesTry (E : JsEngine) (env : Env) (db : Db) (user : Identity)
    (selectedMuscles : Option (List MuscleElem)) : Except Err (Response × Db) :=
  match selectedMuscles with
  | none => .ok ({ status := 400, body := .message msgMusclesArray }, db)
  | some muscles =>
    match cleanMuscles E muscles with
    | .error e => .error e
    | .ok cleanedMuscles =>
      let invalidMuscles := cleanedMuscles.filter (fun muscle => !validMuscles.contains muscle)
      if invalidMuscles.length > 0 then
        .ok ({ status := 400
               body := .message ("Invalid muscles: ".toList ++ jsJoin ", ".toList invalidMuscles) },
             db)
      else if user.email = [] then
        .ok ({ status := 400, body := .message msgNotAuthenticated }, db)
      else
        match MuscleSelection.findOne env db user.email with
        | .error e => .error e
        | .ok (some found) =>
          match found.update env db cleanedMuscles with
          | .error e => .error e
          | .ok (muscleSelection, db') =>
            .ok ({ status := 201
                   body := .saved msgMusclesSaved (muscleSelectionJson muscleSelection) }, db')
        | .ok none =>
          let muscleSelection : MuscleSelection :=
            { _id := env.newId, email := user.email, selectedMuscles := cleanedMuscles
              createdAt := env.now, __v := 0 }
          match muscleSelection.insert env db with
          | .error e => .error e
          | .ok db' =>
            .ok ({ status := 201
                   body := .saved msgMusclesSaved (muscleSelectionJson muscleSelection) }, db')

/-- The handler of `POST /api/save-muscles`. -/
def saveMuscles (E : JsEngine) (env : Env) (db : Db) (user : Identity)
    (selectedMuscles : Option (List MuscleElem)) : Response × Db :=
  match saveMusclesTry E env db user selectedMuscles with
  | .ok r => r
  | .error _ => ({ status := 500, body := .message msgInternal }, db)

/-- The route `POST /api/save-muscles`. -/
def saveMusclesRoute (J : JwtCodec) (E : JsEngine) (env : Env) (db : Db)
    (header : Option Str) (selectedMuscles : Option (List MuscleElem)) : Ctx × Db :=
  protectedRoute J env db header (fun user => saveMuscles E env db user selectedMuscles)

/-! ## The remaining routes and the error handler of index.js -/

/-- An element of a submitted array of questions and answers: either field may
be missing. -/
structure RawQuestionAnswer where
  question : Option Str
  answer : Option Str
  deriving DecidableEq, Repr

/-- The validation of an array of `{ question, answer }` subdocuments, both
paths `required`: `none` when some element fails. -/
def castAnswers : List RawQuestionAnswer → Option (List QuestionAnswer)
  | [] => some []
  | r :: rs =>
    match required r.question, required r.answer, castAnswers rs with
    | some q, some a, some l => some ({ question := q, answer := a } :: l)
    | _, _, _ => none

/-- The JSON form of an `OnboardingQuestion` document. -/
def onboardingQuestionJson (d : OnboardingQuestion) : JObj :=
  [("email", .str d.email), ("responses", .answers d.responses), ("_id", .num d._id),
   ("createdAt", .num d.createdAt), ("__v", .num 0)]

/-- The call `newAnswers.save()` for `new OnboardingQuestion({ email, responses })`. -/
def OnboardingQuestion.save (env : Env) (db : Db) (email : Str)
    (responses : List RawQuestionAnswer) : Except Err (OnboardingQuestion × Db) :=
  match castAnswers responses with
  | none => .error .validation
  | some l =>
    if email = [] then .error .validation
    else if env.saveFails then .error .store
    else if db.onboardingQuestions.any (fun d => decide (d._id = env.newId)) then
      .error .duplicateKey
    else
      let doc : OnboardingQuestion :=
        { _id := env.newId, email := email, responses := l, createdAt := env.now }
      .ok (doc, { db with onboardingQuestions := db.onboardingQuestions ++ [doc] })

def msgResponsesArray : Str := "Responses are required and must be an array.".toList
def msgAnswersSaved : Str := "Answers saved successfully!".toList

/-- The handler of `POST /api/save-answers`; `responses` is `none` when the
field is missing or is not an array. -/
def saveAnswers (env : Env) (db : Db) (user : Identity)
    (responses : Option (List RawQuestionAnswer)) : Response × Db :=
  match responses with
  | none => ({ status := 400, body := .message msgResponsesArray }, db)
  | some rs =>
    match OnboardingQuestion.save env db user.email rs with
    | .error _ => ({ status := 500, body := .message msgInternal }, db)
    | .ok (newAnswers, db') =>
      ({ status := 201, body := .saved msgAnswersSaved (onboardingQuestionJson newAnswers) }, db')

/-- The route `POST /api/save-answers`. -/
def saveAnswersRoute (J : JwtCodec) (env : Env) (db : Db) (header : Option Str)
    (responses : Option (List RawQuestionAnswer)) : Ctx × Db :=
  protectedRoute J env db header (fun user => saveAnswers env db user responses)

/-- An element of a submitted `levels` array. -/
structure RawLevel where
  title : Option Str
  questionAnswers : List RawQuestionAnswer
  deriving DecidableEq, Repr

/-- The validation of the `levels` of a `Journey`: `title` is `required`, as are
the two paths of every element of `questionAnswers`. -/
def castLevels : List RawLevel → Option (List Level)
  | [] => some []
  | r :: rs =>
    match required r.title, castAnswers r.questionAnswers, castLevels rs with
    | some t, some qa, some l => some ({ title := t, questionAnswers := qa } :: l)
    | _, _, _ => none

/-- The JSON body of `POST /api/story-answers`. -/
structure StoryBody where
  email : Option Str
  levels : Option (List RawLevel)
  deriving DecidableEq, Repr

/-- The JSON form of a `Journey` document. -/
def journeyJson (d : Journey) : JObj :=
  [("email", .str d.email), ("levels", .levels d.levels), ("_id", .num d._id),
   ("createdAt", .num d.createdAt), ("__v", .num 0)]

/-- The call `newJourney.save()` for `new Journey({ email, levels })`; a missing
`levels` is the empty array. -/
def Journey.save (env : Env) (db : Db) (body : StoryBody) : Except Err (Journey × Db) :=
  match required body.email, castLevels (body.levels.getD []) with
  | some email, some levels =>
    if env.saveFails then .error .store
    else if db.journeys.any (fun d => decide (d._id = env.newId)) then .error .duplicateKey
    else
      let doc : Journey :=
        { _id := env.newId, email := email, levels := levels, createdAt := env.now }
      .ok (doc, { db with journeys := db.journeys ++ [doc] })
  | _, _ => .error .validation

def msgJourneySaved : Str := "Journey saved successfully!".toList

/-- The route `POST /api/story-answers`: it is registered without `auth`, so
its handler runs on every request and reads `email` from the body. -/
def storyAnswers (env : Env) (db : Db) (body : StoryBody) : Response × Db :=
  match Journey.save env db body with
  | .error _ => ({ status := 500, body := .message msgInternal }, db)
  | .ok (newJourney, db') =>
    ({ status := 201, body := .saved msgJourneySaved (journeyJson newJourney) }, db')

/-- The JSON form of an `Audio` document. -/
def audioJson (d : Audio) : JObj :=
  [("email", .str d.email), ("audio", .str d.audio), ("_id", .num d._id),
   ("createdAt", .num d.createdAt), ("__v", .num 0)]

/-- The call `newAudio.save()`. -/
def Audio.save (env : Env) (db : Db) (doc : Audio) : Except Err Db :=
  if doc.email = [] ∨ doc.audio = [] then .error .validation
  else if env.saveFails then .error .store
  else if db.audios.any (fun d => decide (d._id = doc._id)) then .error .duplicateKey
  else .ok { db with audios := db.audios ++ [doc] }

def msgAudioSaved : Str := "Audio entry saved successfully!".toList

/-- The handler of `POST /api/saveAudio`, on the field `postExperience` of the body. -/
def saveAudio (env : Env) (db : Db) (user : Identity) (postExperience : Option Str) :
    Response × Db :=
  match truthy postExperience with
  | none => ({ status := 400, body := .message msgAllFields }, db)
  | some audio =>
    let newAudio : Audio :=
      { _id := env.newId, email := user.email, audio := audio, createdAt := env.now }
    match newAudio.save env db with
    | .error _ => ({ status := 500, body := .message msgInternal }, db)
    | .ok db' => ({ status := 201, body := .saved msgAudioSaved (audioJson newAudio) }, db')

/-- The route `POST /api/saveAudio`. -/
def saveAudioRoute (J : JwtCodec) (env : Env) (db : Db) (header : Option Str)
    (postExperience : Option Str) : Ctx × Db :=
  protectedRoute J env db header (fun user => saveAudio env db user postExperience)

/-- An error object: its `message` and its `stack`. -/
structure JsError where
  message : Str
  stack : Str
  deriving DecidableEq, Repr

/-- The middleware `errorHandler`, on the error and on `res.statusCode` as it
stands when the error arrives. -/
def errorHandler (env : Env) (err : JsError) (statusCode : Nat) : Response :=
  let statusCode := if statusCode = 200 then 500 else statusCode
  { status := statusCode
    body := .failure err.message
      (if env.NODE_ENV = some "production".toList then none else some err.stack) }

/-! ## Auxiliary definitions of the statements -/

/-- The statuses of the responses written so far. -/
def Ctx.statuses (c : Ctx) : List Nat := c.responses.map (fun r => r.status)

/-- The verification that `auth` performs on the token of a header. -/
def verifyHeader (J : JwtCodec) (env : Env) (header : Option Str) : Except Err Jwt :=
  jwtVerify J ((extractToken header).getD []) (jwtSecret env) env.now

/-- The context after `auth` has attached the identity of `u` and called `next`. -/
def Ctx.attached (c : Ctx) (u : User) : Ctx :=
  ({ c with user := some { userId := u._id, email := u.email, name := u.name } }).next

/-- The method `String.prototype.includes(pat)`. -/
def jsIncludes (pat : Str) : Str → Bool
  | [] => pat.isEmpty
  | c :: cs => pat.isPrefixOf (c :: cs) || jsIncludes pat cs

/-- The string `"Bearer "`. -/
def bearer : Str := "Bearer ".toList

/-- Equality of `Except` values is decidable. -/
instance instDecidableEqExcept {ε α : Type} [DecidableEq ε] [DecidableEq α] :
    DecidableEq (Except ε α) := fun a b =>
  match a, b with
  | .error x, .error y =>
    if h : x = y then isTrue (by rw [h]) else isFalse (by intro hc; cases hc; exact h rfl)
  | .ok x, .ok y =>
    if h : x = y then isTrue (by rw [h]) else isFalse (by intro hc; cases hc; exact h rfl)
  | .error _, .ok _ => isFalse (by intro hc; cases hc)
  | .ok _, .error _ => isFalse (by intro hc; cases hc)

/-- Every stored email is a normalised form: the value of the setters of the
schema on some text. -/
def EmailsNormalized (E : JsEngine) (db : Db) : Prop :=
  ∀ u ∈ db.users, ∃ e, u.email = normalizeEmail E e

/-- No two stored users have the same email. -/
def UniqueEmails (db : Db) : Prop :=
  db.users.Pairwise (fun a b => a.email ≠ b.email)

/-- No two stored users have emails of the same normalised form. -/
def UniqueNormalizedEmails (E : JsEngine) (db : Db) : Prop :=
  db.users.Pairwise (fun a b => normalizeEmail E a.email ≠ normalizeEmail E b.email)

/-- A sequence of registration requests, handled one after the other. -/
def registerAll (J : JwtCodec) (E : JsEngine) : Db → List (Env × Credentials) → Db
  | db, [] => db
  | db, (env, body) :: rest => registerAll J E (register J E env db body).2 rest

/-- The user record that a successful registration of `(e, p, n)` persists. -/
def registeredUser (env : Env) (e p n : Str) : User :=
  { _id := env.newId, email := e, password := .bcrypt 8 env.salt p, name := n
    createdAt := env.now }

/-- The cleaned form of submitted muscle names: `trim()` then `toUpperCase()`. -/
def cleanNames (E : JsEngine) (names : List Str) : List Str :=
  names.map (fun s => E.toUpperCase (trim s))

/-- The stored document after `selectedMuscles = cleaned` and `save()`: the same
document when the array is the same, otherwise the document with the new array
and the next version. -/
def MuscleSelection.assigned (d : MuscleSelection) (cleaned : List Str) : MuscleSelection :=
  if cleaned = d.selectedMuscles then d
  else { d with selectedMuscles := cleaned, __v := d.__v + 1 }

/-- The documents of `MuscleSelection` have pairwise distinct `_id`, as the
index on `_id` ensures. -/
def UniqueMuscleIds (db : Db) : Prop :=
  db.muscleSelections.Pairwise (fun a b => a._id ≠ b._id)

/-- At most one `MuscleSelection` document per email. -/
def OneSelectionPerEmail (db : Db) : Prop :=
  db.muscleSelections.Pairwise (fun a b => a.email ≠ b.email)

/-- A sequence of `POST /api/save-muscles` requests, handled one after the
other: each with its environment, `Authorization` header and `selectedMuscles`. -/
def saveMusclesAll (J : JwtCodec) (E : JsEngine) :
    Db → List (Env × Option Str × Option (List MuscleElem)) → Db
  | db, [] => db
  | db, (env, header, muscles) :: rest =>
    saveMusclesAll J E (saveMusclesRoute J E env db header muscles).2 rest

/-! ## A reference serialisation of tokens -/

/-- The binary digits of `n`, lowest first, with `fuel` bounding their number. -/
def encBits : (fuel n : Nat) → Str
  | 0, _ => []
  | fuel + 1, n =>
    if n = 0 then [] else (if n % 2 = 1 then '1' else '0') :: encBits fuel (n / 2)

/-- A number: its binary digits, then a full stop. -/
def encNat (n : Nat) : Str := encBits n n ++ ['.']

/-- A string: its length, then its characters. -/
def encStr (s : Str) : Str := encNat s.length ++ s

/-- An optional string: a sign, then the string if there is one. -/
def encOptStr : Option Str → Str
  | none => ['-']
  | some s => '+' :: encStr s

/-- Reads a number written by `encNat` off the front of a string. -/
def parseNat : Str → Option (Nat × Str)
  | [] => none
  | c :: cs =>
    if c = '.' then some (0, cs)
    else if c = '0' then (parseNat cs).map (fun r => (2 * r.1, r.2))
    else if c = '1' then (parseNat cs).map (fun r => (2 * r.1 + 1, r.2))
    else none

/-- Reads a string written by `encStr` off the front of a string. -/
def parseStr (s : Str) : Option (Str × Str) :=
  match parseNat s with
  | none => none
  | some (n, r) => if r.length < n then none else some (r.take n, r.drop n)

/-- Reads an optional string written by `encOptStr`. -/
def parseOptStr : Str → Option (Option Str × Str)
  | [] => none
  | c :: cs =>
    if c = '-' then some (none, cs)
    else if c = '+' then (parseStr cs).map (fun r => (some r.1, r.2))
    else none

/-- The reference serialisation: `userId`, `email`, `iat`, `exp`, then the key. -/
def refEncode (t : Jwt) : Str :=
  encNat t.payload.userId ++ (encOptStr t.payload.email ++ (encNat t.iat ++ (encNat t.exp ++ t.key)))

/-- The reference parser of tokens. -/
def refDecode (s : Str) : Option Jwt :=
  match parseNat s with
  | none => none
  | some (userId, r1) =>
    match parseOptStr r1 with
    | none => none
    | some (email, r2) =>
      match parseNat r2 with
      | none => none
      | some (iat, r3) =>
        match parseNat r3 with
        | none => none
        | some (exp, key) =>
          some { payload := { userId := userId, email := email }, iat := iat, exp := exp, key := key }

/-- The reference codec: `refDecode` inverts `refEncode`, and a serialised token
contains at least the full stop that ends its first number. -/
def refCodec : JwtCodec :=
  { encode := refEncode
    decode := refDecode
    decode_encode := by
      have hbits : ∀ (fuel n : Nat) (r : Str), n ≤ fuel →
          parseNat (encBits fuel n ++ '.' :: r) = some (n, r) := by
        intro fuel
        induction fuel with
        | zero =>
          intro n r h
          have h0 : n = 0 := by omega
          subst h0
          simp [encBits, parseNat]
        | succ f ih =>
          intro n r h
          by_cases hn : n = 0
          · subst hn; simp [encBits, parseNat]
          · have hle : n / 2 ≤ f := by omega
            rcases Nat.mod_two_eq_zero_or_one n with h0 | h1
            · simp [encBits, hn, h0, parseNat, ih (n / 2) r hle]
              omega
            · simp [encBits, hn, h1, parseNat, ih (n / 2) r hle]
              omega
      have hnat : ∀ (n : Nat) (r : Str), parseNat (encNat n ++ r) = some (n, r) := by
        intro n r
        simpa [encNat] using hbits n n r le_rfl
      have hstr : ∀ s r : Str, parseStr (encStr s ++ r) = some (s, r) := by
        intro s r
        simp [parseStr, encStr, hnat]
      have hopt : ∀ (o : Option Str) (r : Str),
          parseOptStr (encOptStr o ++ r) = some (o, r) := by
        intro o r
        cases o with
        | none => simp [encOptStr, parseOptStr]
        | some s => simp [encOptStr, parseOptStr, hstr]
      intro t
      simp [refDecode, refEncode, hnat, hopt]
    encode_ne_nil := by
      intro t
      simp [refEncode, encNat] }

/-! ## Sample data -/

/-- The case mappings of the ASCII letters: what every engine computes on a
string whose letters are ASCII.  The strings that the sample requests submit as
emails and muscle names have ASCII letters only. -/
def asciiEngine : JsEngine :=
  { toLowerCase := fun s => s.map Char.toLower
    toUpperCase := fun s => s.map Char.toUpper }

/-- An environment in working order, with the secret `"k"`. -/
def exEnv : Env :=
  { JWT_SECRET := some "k".toList, NODE_ENV := none, now := 1000, newId := 1, salt := 7
    findFails := false, hashFails := false, saveFails := false }

/-- The user registered by `{email: "a@b.com", password: "secret1", name: "A"}`. -/
def exUser : User :=
  { _id := 1, email := "a@b.com".toList, password := .bcrypt 8 7 "secret1".toList
    name := "A".toList, createdAt := 1000 }

/-- The empty database. -/
def emptyDb : Db :=
  { users := [], journals := [], muscleSelections := [], postExperiences := []
    onboardingQuestions := [], journeys := [], audios := [] }

/-- A database holding `exUser` only. -/
def exDb : Db := { emptyDb with users := [exUser] }

/-- The credentials of `exUser`. -/
def exCredentials : Credentials :=
  { email := some "a@b.com".toList, password := some "secret1".toList, name := some "A".toList }

/-- A password of three code points `U+1F600`, of `length` 6. -/
def exAstralPassword : Str := List.replicate 3 (Char.ofNat 0x1F600)

/-- A password of 73 bytes. -/
def exLongPassword : Str := List.replicate 72 'a' ++ "1".toList

/-- A password that differs from `exLongPassword` in its 73rd byte. -/
def exLongCandidate : Str := List.replicate 72 'a' ++ "2".toList

/-- A token for `exUser`, signed with the secret of `exEnv` at time 1000. -/
def exToken : Str :=
  jwtSign refCodec { userId := 1, email := some "a@b.com".toList } "k".toList 1000

/-- An environment like `exEnv` in which the queries of the store reject. -/
def exEnvStoreDown : Env := { exEnv with findFails := true }

/-- The environment of a later request: time 2000, another `_id` to give. -/
def exEnvLater : Env := { exEnv with now := 2000, newId := 2 }

/-- The environment of a request shortly before the expiry of a token issued at
time 2000. -/
def exEnvLast : Env := { exEnv with now := 600000, newId := 3 }

/-- An environment like `exEnv` in which `JWT_SECRET` is not set. -/
def exEnvNoSecret : Env := { exEnv with JWT_SECRET := none }

/-- A token for the user of `_id` 1 that anyone can make: signed at time 500
with the key written in the source. -/
def exForgedToken : Str :=
  jwtSign refCodec { userId := 1, email := none } "your-secret-key".toList 500

/-- An environment like `exEnv` in production mode. -/
def exEnvProduction : Env := { exEnv with NODE_ENV := some "production".toList }

/-- The values of `Date.parse` on three sample strings: the first instant of the
year 10000, an instant of 4 November 2024, and a text that is not a date. -/
def exParseDate (s : Str) : Option Int :=
  if s = "+010000-01-01T00:00:00.000Z".toList then some 253402300800000
  else if s = "2024-11-04T10:30:00.000Z".toList then some 1730716200000
  else none

/-- A journal entry with all its fields, for the given `experienceDate`. -/
def exJournalEntry (experienceDate : Str) : JournalEntry :=
  { medicine := some "m".toList, intention := some "i".toList
    experienceDate := some experienceDate, currentState := some "c".toList
    postExperience := some "p".toList }

/-- The sample store with a muscle selection of the sample user. -/
def exDbMuscles : Db :=
  { exDb with muscleSelections :=
      [{ _id := 5, email := "a@b.com".toList, selectedMuscles := ["ABS".toList]
         createdAt := 900, __v := 0 }] }

/-! ## Lemmas on strings and normalisation -/

theorem jsReplace_of_not_includes (pat rep : Str) (hp : pat ≠ []) :
    ∀ s : Str, jsIncludes pat s = false → jsReplace pat rep s = s := by
  intro s
  induction s with
  | nil => intro _; simp [jsReplace, hp]
  | cons c cs ih =>
    intro h
    simp only [jsIncludes, Bool.or_eq_false_iff] at h
    simp [jsReplace, h.1, ih h.2]

theorem jsReplace_append_self (pat s : Str) (hp : pat ≠ []) :
    jsReplace pat [] (pat ++ s) = s := by
  cases hps : pat ++ s with
  | nil => simp at hps; exact absurd hps.1 hp
  | cons c cs =>
    have hpre : pat.isPrefixOf (c :: cs) = true := by
      rw [← hps]; simp
    simp [jsReplace, hpre]
    rw [← hps]; simp

theorem jsReplace_eq_nil_iff (pat : Str) (hp : pat ≠ []) (s : Str) :
    jsReplace pat [] s = [] ↔ s = [] ∨ s = pat := by
  cases s with
  | nil => simp [jsReplace, hp]
  | cons c cs =>
    by_cases hpre : pat.isPrefixOf (c :: cs) = true
    · simp only [jsReplace, hpre, if_true, List.nil_append]
      have hpx : pat <+: (c :: cs) := List.isPrefixOf_iff_prefix.mp hpre
      obtain ⟨t, ht⟩ := hpx
      rw [← ht]
      simp
    · simp only [jsReplace, hpre]
      simp
      intro h
      apply hpre
      rw [← h]; simp


theorem noToken_extractToken (h : Str) :
    noToken (extractToken (some h)) = true ↔ h = [] ∨ h = bearer := by
  have : noToken (extractToken (some h)) = true ↔ jsReplace bearer [] h = [] := by
    simp [noToken, extractToken, bearer]
  rw [this]
  exact jsReplace_eq_nil_iff bearer (by decide) h

theorem toLower_cases (c : Char) :
    Char.toLower c = c ∨ ∃ n, 65 ≤ n ∧ n ≤ 90 ∧ c = Char.ofNat n := by
  unfold Char.toLower
  by_cases h : c.toNat ≥ 65 ∧ c.toNat ≤ 90
  · right
    exact ⟨c.toNat, h.1, h.2, (Char.ofNat_toNat c).symm⟩
  · left
    simp only [h, if_false]

theorem toLower_toLower (c : Char) : Char.toLower (Char.toLower c) = Char.toLower c := by
  rcases toLower_cases c with h | ⟨n, h1, h2, rfl⟩
  · rw [h, h]
  · interval_cases n <;> rfl

theorem jsIsWhiteSpace_toLower (c : Char) :
    jsIsWhiteSpace (Char.toLower c) = jsIsWhiteSpace c := by
  rcases toLower_cases c with h | ⟨n, h1, h2, rfl⟩
  · rw [h]
  · interval_cases n <;> rfl

theorem asciiLower_trimStart (s : Str) :
    asciiEngine.toLowerCase (trimStart s) = trimStart (asciiEngine.toLowerCase s) := by
  induction s with
  | nil => rfl
  | cons c cs ih =>
    simp only [asciiEngine, trimStart] at *
    by_cases h : jsIsWhiteSpace c = true
    · have h' : jsIsWhiteSpace (Char.toLower c) = true := by
        rw [jsIsWhiteSpace_toLower]; exact h
      simp [List.dropWhile_cons, h, h', ih]
    · have h' : ¬ jsIsWhiteSpace (Char.toLower c) = true := by
        rw [jsIsWhiteSpace_toLower]; exact h
      simp [List.dropWhile_cons, h, h']

theorem asciiLower_reverse (s : Str) :
    asciiEngine.toLowerCase s.reverse = (asciiEngine.toLowerCase s).reverse := by
  simp [asciiEngine]

theorem asciiLower_trim (s : Str) :
    asciiEngine.toLowerCase (trim s) = trim (asciiEngine.toLowerCase s) := by
  unfold trim
  rw [asciiLower_reverse, asciiLower_trimStart, asciiLower_reverse, asciiLower_trimStart]

theorem asciiLower_idem (s : Str) :
    asciiEngine.toLowerCase (asciiEngine.toLowerCase s) = asciiEngine.toLowerCase s := by
  simp [asciiEngine, toLower_toLower]

theorem trimStart_idem (s : Str) : trimStart (trimStart s) = trimStart s := by
  unfold trimStart; exact List.dropWhile_idempotent _ _

theorem trimStart_eq_self_iff (s : Str) :
    trimStart s = s ↔ ∀ h : s ≠ [], jsIsWhiteSpace (s.head h) = false := by
  cases s with
  | nil => simp [trimStart]
  | cons c cs =>
    by_cases h : jsIsWhiteSpace c = true
    · simp [trimStart, List.dropWhile_cons, h]
      intro heq
      have := List.dropWhile_suffix (l := cs) jsIsWhiteSpace
      rw [heq] at this
      have := this.length_le
      simp at this
    · simp [trimStart, List.dropWhile_cons, h]

theorem trim_idem (s : Str) : trim (trim s) = trim s := by
  unfold trim
  set a := trimStart s with ha
  set b := trimStart a.reverse with hb
  have hbb : trimStart b = b := by rw [hb, trimStart_idem]
  have hrev : trimStart b.reverse = b.reverse := by
    rw [trimStart_eq_self_iff]
    intro hne
    have hbne : b ≠ [] := by simpa using hne
    have hsuf : b <:+ a.reverse := by rw [hb]; exact List.dropWhile_suffix _
    obtain ⟨pre, hpre⟩ := hsuf
    have hane : a ≠ [] := by
      intro h0; rw [h0] at hpre; simp at hpre; exact hbne hpre.2
    have hhead : b.reverse.head hne = a.head hane := by
      have h2 : a = b.reverse ++ pre.reverse := by
        have := congrArg List.reverse hpre
        simpa using this.symm
      simp [h2, List.head_append_of_ne_nil hne]
    rw [hhead]
    have hx := List.head_dropWhile_not jsIsWhiteSpace s (by rw [ha] at hane; exact hane)
    simpa [ha, trimStart] using hx
  rw [hrev, List.reverse_reverse, hbb]

theorem normalizeEmail_ascii_idem (s : Str) :
    normalizeEmail asciiEngine (normalizeEmail asciiEngine s) = normalizeEmail asciiEngine s := by
  unfold normalizeEmail
  rw [asciiLower_trim, asciiLower_idem, ← asciiLower_trim, trim_idem]

theorem jsLength_pos_ne_nil {p : Str} (h : 0 < jsLength p) : p ≠ [] := by
  intro h0
  rw [h0] at h
  simp [jsLength] at h

theorem jsReplace_first_occurrence (pat : Str) (hp : pat ≠ []) :
    ∀ a b : Str, (∀ i, i < a.length → pat.isPrefixOf ((a ++ (pat ++ b)).drop i) = false) →
      jsReplace pat [] (a ++ (pat ++ b)) = a ++ b := by
  intro a
  induction a with
  | nil => intro b _; simpa using jsReplace_append_self pat b hp
  | cons c cs ih =>
    intro b h
    have h0 : pat.isPrefixOf (c :: (cs ++ (pat ++ b))) = false := by
      simpa using h 0 (by simp)
    have hrest : ∀ i, i < cs.length → pat.isPrefixOf ((cs ++ (pat ++ b)).drop i) = false := by
      intro i hi
      simpa using h (i + 1) (by simpa using hi)
    have hstep : jsReplace pat [] (c :: (cs ++ (pat ++ b))) =
        c :: jsReplace pat [] (cs ++ (pat ++ b)) := by
      rw [jsReplace]
      simp [h0]
    rw [List.cons_append, hstep, ih b hrest]
    rfl

/-! ## Lemmas on the model -/

theorem auth_eq (J : JwtCodec) (env : Env) (db : Db) (header : Option Str) (c : Ctx) :
    auth J env db header c =
      if noToken (extractToken header) then c.send 401 (.message msgNoToken)
      else match verifyHeader J env header with
        | .error _ => c.send 401 (.message msgInvalidToken)
        | .ok t =>
          if env.findFails then c.send 401 (.message msgInvalidToken)
          else match db.users.find? (fun u => decide (u._id = t.payload.userId)) with
            | none => c.send 404 (.message msgUserNotFound)
            | some u => c.attached u := by
  unfold auth authTry verifyHeader User.findById Ctx.attached
  by_cases h : noToken (extractToken header) = true
  · simp [h]
  · simp only [h]
    cases hv : jwtVerify J ((extractToken header).getD []) (jwtSecret env) env.now with
    | error e => simp
    | ok t =>
      by_cases hf : env.findFails = true
      · simp [hf]
      · simp only [hf]
        cases hu : db.users.find? (fun u => decide (u._id = t.payload.userId)) with
        | none => simp
        | some u => simp

theorem required_eq_some {v : Option Str} {s : Str} (h : required v = some s) :
    v = some s ∧ s ≠ [] := by
  unfold required at h
  cases v with
  | none => simp at h
  | some x =>
    by_cases hx : x = []
    · simp [hx] at h
    · simp [hx] at h
      subst h
      exact ⟨rfl, hx⟩

theorem UserDoc.save_ok {env : Env} {db db' : Db} {doc : UserDoc} {user : User}
    (h : doc.save env db = .ok (user, db')) :
    doc.email = some user.email ∧ user.email ≠ [] ∧
    (∃ p, doc.password = some p ∧ 6 ≤ jsLength p ∧ user.password = .bcrypt 8 env.salt p) ∧
    doc.name = some user.name ∧ user.name ≠ [] ∧
    user._id = doc._id ∧ user.createdAt = doc.createdAt ∧
    (∀ u ∈ db.users, u._id ≠ doc._id ∧ u.email ≠ user.email) ∧
    db' = { db with users := db.users ++ [user] } ∧
    env.hashFails = false ∧ env.saveFails = false := by
  unfold UserDoc.save bcryptHash at h
  split at h
  · rename_i email password name he hp hn
    obtain ⟨he1, he2⟩ := required_eq_some he
    obtain ⟨hp1, _⟩ := required_eq_some hp
    obtain ⟨hn1, hn2⟩ := required_eq_some hn
    by_cases hlen : jsLength password < 6
    · simp [hlen] at h
    · by_cases hh : env.hashFails = true
      · simp [hlen, hh] at h
      · by_cases hs : env.saveFails = true
        · simp [hlen, hh, hs] at h
        · by_cases hany : db.users.any
              (fun u => decide (u._id = doc._id) || decide (u.email = email)) = true
          · simp only [hlen, hh, hs, hany] at h
            simp at h
          · simp only [hlen, hh, hs, hany] at h
            simp at h
            obtain ⟨hu, hdb⟩ := h
            subst hu
            simp at hany
            refine ⟨he1, he2, ⟨password, hp1, by omega, rfl⟩, hn1, hn2, rfl, rfl, ?_, hdb.symm,
              by simpa using hh, by simpa using hs⟩
            intro u hu
            exact hany u hu
  · simp at h

theorem UserDoc.save_succeeds (env : Env) (db : Db) (doc : UserDoc) (e p n : Str)
    (he : doc.email = some e) (hne : e ≠ []) (hp : doc.password = some p)
    (hlen : 6 ≤ jsLength p)
    (hn : doc.name = some n) (hnn : n ≠ [])
    (hh : env.hashFails = false) (hs : env.saveFails = false)
    (hfresh : ∀ u ∈ db.users, u._id ≠ doc._id ∧ u.email ≠ e) :
    doc.save env db =
      .ok ({ _id := doc._id, email := e, password := .bcrypt 8 env.salt p, name := n,
             createdAt := doc.createdAt },
           { db with users := db.users ++ [{ _id := doc._id, email := e,
                                             password := .bcrypt 8 env.salt p, name := n,
                                             createdAt := doc.createdAt }] }) := by
  have hpn : p ≠ [] := jsLength_pos_ne_nil (by omega)
  have hany : db.users.any (fun u => decide (u._id = doc._id) || decide (u.email = e)) = false := by
    rw [List.any_eq_false]
    intro u hu
    have := hfresh u hu
    simp [this.1, this.2]
  have hlen' : ¬ jsLength p < 6 := by omega
  simp [UserDoc.save, he, hp, hn, required, hne, hpn, hnn, hlen', bcryptHash, hh, hs, hany]

theorem find_append_singleton_of_fresh {α : Type} (p : α → Bool) (l : List α) (a : α)
    (hl : ∀ x ∈ l, p x = false) (ha : p a = true) : (l ++ [a]).find? p = some a := by
  induction l with
  | nil => simp [List.find?, ha]
  | cons x xs ih =>
    have hx : p x = false := hl x (by simp)
    simp only [List.cons_append, List.find?, hx]
    exact ih (fun y hy => hl y (by simp [hy]))

theorem register_db_cases (J : JwtCodec) (E : JsEngine) (env : Env) (db : Db) (body : Credentials) :
    (register J E env db body).2 = db ∨
    ∃ user e, body.email = some e ∧ user.email = normalizeEmail E e ∧
      (∀ u ∈ db.users, u._id ≠ user._id ∧ u.email ≠ user.email) ∧
      (register J E env db body).2 = { db with users := db.users ++ [user] } := by
  unfold register registerTry
  cases hf : User.findOne E env db body.email with
  | error e => simp
  | ok o =>
    cases o with
    | some u => simp
    | none =>
      cases hs : (newUser E env body.email body.password body.name).save env db with
      | error e => simp
      | ok r =>
        obtain ⟨user, db'⟩ := r
        right
        have hok := UserDoc.save_ok hs
        have hemail := hok.1
        simp only [newUser] at hemail
        cases hb : body.email with
        | none => simp [hb] at hemail
        | some e =>
          simp [hb] at hemail
          refine ⟨user, e, rfl, hemail.symm, ?_, hok.2.2.2.2.2.2.2.2.1⟩
          intro u hu
          have := hok.2.2.2.2.2.2.2.1 u hu
          exact ⟨by rw [hok.2.2.2.2.2.1]; exact this.1, this.2⟩

theorem register_status_201 (J : JwtCodec) (E : JsEngine) (env : Env) (db : Db) (body : Credentials)
    (h : (register J E env db body).1.status = 201) :
    ∃ user e, body.email = some e ∧ user.email = normalizeEmail E e ∧
      user ∈ (register J E env db body).2.users := by
  unfold register registerTry at h ⊢
  cases hf : User.findOne E env db body.email with
  | error e => simp [hf] at h
  | ok o =>
    cases o with
    | some u => simp [hf] at h
    | none =>
      cases hs : (newUser E env body.email body.password body.name).save env db with
      | error e => simp [hf, hs] at h
      | ok r =>
        obtain ⟨user, db'⟩ := r
        have hok := UserDoc.save_ok hs
        have hemail := hok.1
        simp only [newUser] at hemail
        cases hb : body.email with
        | none => simp [hb] at hemail
        | some e =>
          simp [hb] at hemail
          refine ⟨user, e, rfl, hemail.symm, ?_⟩
          simp [hok.2.2.2.2.2.2.2.2.1]

theorem register_preserves (J : JwtCodec) (E : JsEngine) (env : Env) (db : Db)
    (body : Credentials) (hn : EmailsNormalized E db) (hu : UniqueEmails db) :
    EmailsNormalized E (register J E env db body).2 ∧
      UniqueEmails (register J E env db body).2 := by
  rcases register_db_cases J E env db body with h | ⟨user, e, _, hemail, hfresh, hdb⟩
  · rw [h]; exact ⟨hn, hu⟩
  · rw [hdb]
    constructor
    · intro u hmem
      simp at hmem
      rcases hmem with hmem | rfl
      · exact hn u hmem
      · exact ⟨e, hemail⟩
    · unfold UniqueEmails at *
      simp only [List.pairwise_append, List.pairwise_singleton, List.mem_singleton, true_and]
      refine ⟨hu, ?_⟩
      intro a ha b hb
      subst hb
      exact (hfresh a ha).2

theorem registerAll_preserves (J : JwtCodec) (E : JsEngine)
    (reqs : List (Env × Credentials)) :
    ∀ db, EmailsNormalized E db → UniqueEmails db →
      EmailsNormalized E (registerAll J E db reqs) ∧ UniqueEmails (registerAll J E db reqs) := by
  induction reqs with
  | nil => intro db hn hu; exact ⟨hn, hu⟩
  | cons r rest ih =>
    intro db hn hu
    obtain ⟨env, body⟩ := r
    have h := register_preserves J E env db body hn hu
    exact ih _ h.1 h.2

theorem uniqueNormalized_of_unique (E : JsEngine) (db : Db)
    (hidem : ∀ s, normalizeEmail E (normalizeEmail E s) = normalizeEmail E s)
    (hn : EmailsNormalized E db) (hu : UniqueEmails db) : UniqueNormalizedEmails E db := by
  unfold UniqueNormalizedEmails UniqueEmails at *
  have hfix : ∀ u ∈ db.users, normalizeEmail E u.email = u.email := by
    intro u hm
    obtain ⟨e, he⟩ := hn u hm
    rw [he, hidem]
  rw [List.pairwise_iff_forall_sublist] at hu ⊢
  intro a b hab
  have ha : a ∈ db.users := hab.subset (by simp)
  have hb : b ∈ db.users := hab.subset (by simp)
  rw [hfix a ha, hfix b hb]
  exact hu hab

theorem register_by_lookup (J : JwtCodec) (E : JsEngine) (env : Env) (db : Db) (body : Credentials) :
    (∀ u, User.findOne E env db body.email = .ok (some u) →
      register J E env db body = ({ status := 400, body := .message msgUserExists }, db)) ∧
    ((register J E env db body).2 ≠ db →
      ∃ user, (register J E env db body).2 = { db with users := db.users ++ [user] } ∧
        (register J E env db body).1 =
          { status := 201
            body := .session (jwtSign J { userId := user._id, email := some user.email }
                (jwtSecret env) env.now)
              [("id", .num user._id), ("email", .str user.email), ("name", .str user.name)] }) ∧
    (((∃ e, User.findOne E env db body.email = .error e) ∨
        (User.findOne E env db body.email = .ok none ∧
          ∃ e, (newUser E env body.email body.password body.name).save env db = .error e)) →
      register J E env db body = ({ status := 500, body := .message msgRegisterError }, db) ∧
        (register J E env db body).1.body.token? = none) := by
  unfold register registerTry
  cases hf : User.findOne E env db body.email with
  | error e => simp [Body.token?]
  | ok o =>
    cases o with
    | some u => simp
    | none =>
      cases hs : (newUser E env body.email body.password body.name).save env db with
      | error e => simp [Body.token?]
      | ok r =>
        obtain ⟨user, db'⟩ := r
        have hdb := (UserDoc.save_ok hs).2.2.2.2.2.2.2.2.1
        simp [userView]
        intro _
        exact ⟨user, hdb, rfl, rfl, rfl, rfl⟩

theorem User.findOne_of_mem (E : JsEngine) (env : Env) (db : Db) (e : Str) (u : User)
    (hup : env.findFails = false) (hm : u ∈ db.users) (he : u.email = normalizeEmail E e) :
    ∃ v, User.findOne E env db (some e) = .ok (some v) := by
  cases hq : db.users.find? (fun u => decide (u.email = normalizeEmail E e)) with
  | some v => exact ⟨v, by simp [User.findOne, hup, hq]⟩
  | none =>
    have := List.find?_eq_none.mp hq u hm
    simp [he] at this

theorem issued_token_key (J : JwtCodec) (E : JsEngine) (env : Env) (db : Db) (body : Credentials) (tok : Str)
    (h : (register J E env db body).1.body.token? = some tok ∨
      (login J E env db body).body.token? = some tok) :
    ∃ t, J.decode tok = some t ∧ t.key = jwtSecret env := by
  rcases h with h | h
  · unfold register registerTry at h
    cases hf : User.findOne E env db body.email with
    | error e => simp [hf, Body.token?] at h
    | ok o =>
      cases o with
      | some u => simp [hf, Body.token?] at h
      | none =>
        cases hs : (newUser E env body.email body.password body.name).save env db with
        | error e => simp [hf, hs, Body.token?] at h
        | ok r =>
          simp [hf, hs, Body.token?] at h
          subst h
          exact ⟨_, by simp only [jwtSign, J.decode_encode]; rfl, rfl⟩
  · unfold login loginTry at h
    cases hf : User.findOne E env db body.email with
    | error e => simp [hf, Body.token?] at h
    | ok o =>
      cases o with
      | none => simp [hf, Body.token?] at h
      | some u =>
        cases hc : u.comparePassword env body.password with
        | error e => simp [hf, hc, Body.token?] at h
        | ok b =>
          cases b with
          | false => simp [hf, hc, Body.token?] at h
          | true =>
            simp [hf, hc, Body.token?] at h
            subst h
            exact ⟨_, by simp only [jwtSign, J.decode_encode]; rfl, rfl⟩

theorem extractToken_bearer (tok : Str) : extractToken (some (bearer ++ tok)) = some tok := by
  simp only [extractToken, Option.map_some']
  exact congrArg some (jsReplace_append_self bearer tok (by decide))

theorem cleanMuscles_strs (E : JsEngine) (names : List Str) :
    cleanMuscles E (names.map MuscleElem.str) = .ok (cleanNames E names) := by
  induction names with
  | nil => rfl
  | cons n ns ih => simp [cleanMuscles, cleanMuscle, ih, cleanNames]

theorem filter_invalid_eq_nil (l : List Str) :
    l.filter (fun m => !validMuscles.contains m) = [] ↔ ∀ m ∈ l, m ∈ validMuscles := by
  simp [List.filter_eq_nil_iff]

theorem jsJoin_eq_intercalate (sep : Str) : ∀ l : List Str, jsJoin sep l = List.intercalate sep l
  | [] => rfl
  | [s] => by simp [jsJoin, List.intercalate]
  | s :: t :: rest => by
    rw [jsJoin, jsJoin_eq_intercalate sep (t :: rest)]
    simp [List.intercalate, List.intersperse]

theorem saveMuscles_eq (E : JsEngine) (env : Env) (db : Db) (user : Identity)
    (muscles : List MuscleElem) (cleaned : List Str)
    (hc : cleanMuscles E muscles = .ok cleaned) :
    saveMuscles E env db user (some muscles) =
      if cleaned.filter (fun m => !validMuscles.contains m) ≠ [] then
        ({ status := 400
           body := .message ("Invalid muscles: ".toList ++
             jsJoin ", ".toList (cleaned.filter (fun m => !validMuscles.contains m))) }, db)
      else if user.email = [] then
        ({ status := 400, body := .message msgNotAuthenticated }, db)
      else if env.findFails = true then ({ status := 500, body := .message msgInternal }, db)
      else match db.muscleSelections.find? (fun d => decide (d.email = user.email)) with
        | some found =>
          if env.saveFails = true then ({ status := 500, body := .message msgInternal }, db)
          else if cleaned = found.selectedMuscles then
            ({ status := 201, body := .saved msgMusclesSaved (muscleSelectionJson found) }, db)
          else
            ({ status := 201
               body := .saved msgMusclesSaved (muscleSelectionJson (found.assigned cleaned)) },
             { db with muscleSelections := (db.muscleSelections.map
                 (fun d => if d._id = found._id then found.assigned cleaned else d)) })
        | none =>
          if env.saveFails = true then ({ status := 500, body := .message msgInternal }, db)
          else if db.muscleSelections.any (fun d => decide (d._id = env.newId)) = true then
            ({ status := 500, body := .message msgInternal }, db)
          else
            ({ status := 201
               body := .saved msgMusclesSaved
                 (muscleSelectionJson { _id := env.newId, email := user.email
                                        selectedMuscles := cleaned, createdAt := env.now
                                        __v := 0 }) },
             { db with muscleSelections := (db.muscleSelections ++
                 [{ _id := env.newId, email := user.email, selectedMuscles := cleaned,
                    createdAt := env.now, __v := 0 }]) }) := by
  unfold saveMuscles saveMusclesTry
  simp only [hc]
  by_cases hinv : cleaned.filter (fun m => !validMuscles.contains m) = []
  · have hlen : ¬ (cleaned.filter (fun m => !validMuscles.contains m)).length > 0 := by
      rw [hinv]; simp
    simp only [hlen, if_false, hinv, ne_eq, not_true_eq_false]
    by_cases he : user.email = []
    · simp [he]
    · simp only [he, if_false]
      unfold MuscleSelection.findOne
      by_cases hf : env.findFails = true
      · simp [hf]
      · simp only [hf, if_false]
        cases hq : db.muscleSelections.find? (fun d => decide (d.email = user.email)) with
        | some found =>
          have hfe : found.email = user.email := by
            have := List.find?_some hq
            simpa using this
          have hne : ¬ found.email = [] := by rw [hfe]; exact he
          unfold MuscleSelection.update
          by_cases hs : env.saveFails = true
          · simp [hne, hs]
          · by_cases hsame : cleaned = found.selectedMuscles
            · simp [hne, hs, hsame]
            · simp [hne, hs, hsame, MuscleSelection.assigned]
        | none =>
          unfold MuscleSelection.insert
          by_cases hs : env.saveFails = true
          · simp [he, hs]
          · by_cases hd : db.muscleSelections.any (fun d => decide (d._id = env.newId)) = true
            · simp [he, hs, hd]
            · simp [he, hs, hd]
  · have hlen : (cleaned.filter (fun m => !validMuscles.contains m)).length > 0 :=
      List.length_pos.mpr hinv
    simp only [hlen, if_true, hinv, ne_eq, not_false_eq_true]

theorem assigned_fields (d : MuscleSelection) (cleaned : List Str) :
    (d.assigned cleaned)._id = d._id ∧ (d.assigned cleaned).email = d.email ∧
      (d.assigned cleaned).selectedMuscles = cleaned ∧
      (d.assigned cleaned).createdAt = d.createdAt := by
  unfold MuscleSelection.assigned
  by_cases h : cleaned = d.selectedMuscles
  · simp [h]
  · simp [h]

theorem eq_of_id_eq {l : List MuscleSelection} (hids : l.Pairwise (fun a b => a._id ≠ b._id))
    {a b : MuscleSelection} (ha : a ∈ l) (hb : b ∈ l) (h : a._id = b._id) : a = b := by
  by_contra hne
  exact (hids.forall (fun _ _ hxy => fun heq => hxy heq.symm) ha hb hne) h

theorem eq_of_email_eq {l : List MuscleSelection}
    (hone : l.Pairwise (fun a b => a.email ≠ b.email))
    {a b : MuscleSelection} (ha : a ∈ l) (hb : b ∈ l) (h : a.email = b.email) : a = b := by
  by_contra hne
  exact (hone.forall (fun _ _ hxy => fun heq => hxy heq.symm) ha hb hne) h

theorem replace_by_id_eq_by_email {l : List MuscleSelection}
    (hids : l.Pairwise (fun a b => a._id ≠ b._id))
    (hone : l.Pairwise (fun a b => a.email ≠ b.email))
    {found : MuscleSelection} (hf : found ∈ l) (cleaned : List Str) :
    l.map (fun d => if d._id = found._id then found.assigned cleaned else d) =
      l.map (fun d => if d.email = found.email then d.assigned cleaned else d) := by
  apply List.map_congr_left
  intro d hd
  by_cases hid : d._id = found._id
  · have hdf : d = found := eq_of_id_eq hids hd hf hid
    subst hdf
    simp
  · have hem : ¬ d.email = found.email := fun he => hid (by rw [eq_of_email_eq hone hd hf he])
    simp [hid, hem]

theorem map_assigned_same {l : List MuscleSelection}
    (hone : l.Pairwise (fun a b => a.email ≠ b.email))
    {found : MuscleSelection} (hf : found ∈ l) (cleaned : List Str)
    (hsame : cleaned = found.selectedMuscles) :
    l.map (fun d => if d.email = found.email then d.assigned cleaned else d) = l := by
  conv_rhs => rw [← List.map_id l]
  apply List.map_congr_left
  intro d hd
  by_cases hem : d.email = found.email
  · have hdf : d = found := eq_of_email_eq hone hd hf hem
    subst hdf
    simp [MuscleSelection.assigned, hsame]
  · simp [hem]

theorem pairwise_map_update {l : List MuscleSelection} (email : Str) (cleaned : List Str) :
    (l.Pairwise (fun a b => a._id ≠ b._id) →
      (l.map (fun d => if d.email = email then d.assigned cleaned
        else d)).Pairwise (fun a b => a._id ≠ b._id)) ∧
    (l.Pairwise (fun a b => a.email ≠ b.email) →
      (l.map (fun d => if d.email = email then d.assigned cleaned
        else d)).Pairwise (fun a b => a.email ≠ b.email)) := by
  have hid : ∀ d : MuscleSelection,
      (if d.email = email then d.assigned cleaned else d)._id = d._id := by
    intro d; split
    · exact (assigned_fields d cleaned).1
    · rfl
  have hem : ∀ d : MuscleSelection,
      (if d.email = email then d.assigned cleaned else d).email = d.email := by
    intro d; split
    · exact (assigned_fields d cleaned).2.1
    · rfl
  constructor
  · intro h
    rw [List.pairwise_map]
    refine h.imp ?_
    intro a b hab
    rw [hid a, hid b]
    exact hab
  · intro h
    rw [List.pairwise_map]
    refine h.imp ?_
    intro a b hab
    rw [hem a, hem b]
    exact hab

theorem saveMuscles_unchanged (E : JsEngine) (env : Env) (db : Db) (user : Identity)
    (body : Option (List MuscleElem))
    (h : body = none ∨ ∃ muscles e, body = some muscles ∧ cleanMuscles E muscles = .error e) :
    (saveMuscles E env db user body).2 = db ∧ (saveMuscles E env db user body).1.status ≠ 201 := by
  rcases h with h | ⟨muscles, e, h, he⟩
  · subst h; simp [saveMuscles, saveMusclesTry]
  · subst h; simp [saveMuscles, saveMusclesTry, he]

theorem saveMuscles_step (E : JsEngine) (env : Env) (db : Db) (user : Identity)
    (muscles : List MuscleElem)
    (cleaned : List Str) (hc : cleanMuscles E muscles = .ok cleaned)
    (hids : UniqueMuscleIds db) (hone : OneSelectionPerEmail db) :
    ((saveMuscles E env db user (some muscles)).1.status ≠ 201 ∧
      (saveMuscles E env db user (some muscles)).2 = db) ∨
    ((saveMuscles E env db user (some muscles)).1.status = 201 ∧
      (∃ d ∈ db.muscleSelections, d.email = user.email) ∧
      (saveMuscles E env db user (some muscles)).2 =
        { db with muscleSelections := (db.muscleSelections.map
            (fun d => if d.email = user.email then d.assigned cleaned else d)) }) ∨
    ((saveMuscles E env db user (some muscles)).1.status = 201 ∧
      (∀ d ∈ db.muscleSelections, d.email ≠ user.email ∧ d._id ≠ env.newId) ∧
      (saveMuscles E env db user (some muscles)).2 =
        { db with muscleSelections := (db.muscleSelections ++
            [{ _id := env.newId, email := user.email, selectedMuscles := cleaned,
               createdAt := env.now, __v := 0 }]) }) := by
  have hseq := saveMuscles_eq E env db user muscles cleaned hc
  by_cases hinv : cleaned.filter (fun m => !validMuscles.contains m) = []
  · by_cases he : user.email = []
    · left
      simp only [hinv, ne_eq, not_true_eq_false, he, Bool.false_eq_true, ↓reduceIte] at hseq
      rw [hseq]
      exact ⟨by simp, rfl⟩
    · by_cases hf : env.findFails = true
      · left
        simp only [hinv, ne_eq, not_true_eq_false, he, hf, Bool.false_eq_true, ↓reduceIte]
          at hseq
        rw [hseq]
        exact ⟨by simp, rfl⟩
      · cases hq : db.muscleSelections.find? (fun d => decide (d.email = user.email)) with
        | some found =>
          have hfm : found ∈ db.muscleSelections := List.mem_of_find?_eq_some hq
          have hfe : found.email = user.email := by
            have := List.find?_some hq
            simpa using this
          by_cases hs : env.saveFails = true
          · left
            simp only [hinv, ne_eq, not_true_eq_false, he, hf, hq, hs, Bool.false_eq_true,
              ↓reduceIte] at hseq
            rw [hseq]
            exact ⟨by simp, rfl⟩
          · right; left
            by_cases hsame : cleaned = found.selectedMuscles
            · simp only [hinv, ne_eq, not_true_eq_false, he, hf, hq, hs,
                Bool.false_eq_true, ↓reduceIte] at hseq
              rw [if_pos hsame] at hseq
              rw [hseq]
              refine ⟨rfl, ⟨found, hfm, hfe⟩, ?_⟩
              have hmap := map_assigned_same hone hfm cleaned hsame
              rw [hfe] at hmap
              show db = ({ db with muscleSelections := _ } : Db)
              rw [hmap]
            · simp only [hinv, ne_eq, not_true_eq_false, he, hf, hq, hs,
                Bool.false_eq_true, ↓reduceIte] at hseq
              rw [if_neg hsame] at hseq
              rw [hseq]
              refine ⟨rfl, ⟨found, hfm, hfe⟩, ?_⟩
              have hrep := replace_by_id_eq_by_email hids hone hfm cleaned
              show ({ db with muscleSelections := _ } : Db) = _
              rw [hrep, hfe]
        | none =>
          have hno : ∀ d ∈ db.muscleSelections, d.email ≠ user.email := by
            intro d hd
            have := List.find?_eq_none.mp hq d hd
            simpa using this
          by_cases hs : env.saveFails = true
          · left
            simp only [hinv, ne_eq, not_true_eq_false, he, hf, hq, hs, Bool.false_eq_true,
              ↓reduceIte] at hseq
            rw [hseq]
            exact ⟨by simp, rfl⟩
          · by_cases hd : db.muscleSelections.any (fun d => decide (d._id = env.newId)) = true
            · left
              simp only [hinv, ne_eq, not_true_eq_false, he, hf, hq, hs, hd, Bool.false_eq_true,
                ↓reduceIte] at hseq
              rw [hseq]
              exact ⟨by simp, rfl⟩
            · right; right
              simp only [hinv, ne_eq, not_true_eq_false, he, hf, hq, hs, hd, Bool.false_eq_true,
                ↓reduceIte] at hseq
              rw [hseq]
              refine ⟨rfl, ?_, rfl⟩
              intro d hdm
              refine ⟨hno d hdm, ?_⟩
              intro hid
              apply hd
              exact List.any_eq_true.mpr ⟨d, hdm, by simpa using hid⟩
  · left
    simp only [ne_eq, hinv, not_false_eq_true, Bool.false_eq_true, ↓reduceIte] at hseq
    rw [hseq]
    exact ⟨by simp, rfl⟩

theorem saveMuscles_preserves (E : JsEngine) (env : Env) (db : Db) (user : Identity)
    (body : Option (List MuscleElem))
    (hids : UniqueMuscleIds db) (hone : OneSelectionPerEmail db) :
    UniqueMuscleIds (saveMuscles E env db user body).2 ∧
      OneSelectionPerEmail (saveMuscles E env db user body).2 := by
  cases body with
  | none =>
    rw [(saveMuscles_unchanged E env db user none (Or.inl rfl)).1]
    exact ⟨hids, hone⟩
  | some muscles =>
    cases hc : cleanMuscles E muscles with
    | error e =>
      rw [(saveMuscles_unchanged E env db user (some muscles) (Or.inr ⟨muscles, e, rfl, hc⟩)).1]
      exact ⟨hids, hone⟩
    | ok cleaned =>
      rcases saveMuscles_step E env db user muscles cleaned hc hids hone with
        ⟨_, h⟩ | ⟨_, _, h⟩ | ⟨_, hfresh, h⟩
      · rw [h]; exact ⟨hids, hone⟩
      · rw [h]
        exact ⟨(pairwise_map_update user.email cleaned).1 hids,
          (pairwise_map_update user.email cleaned).2 hone⟩
      · rw [h]
        unfold UniqueMuscleIds OneSelectionPerEmail at *
        simp only [List.pairwise_append, List.pairwise_singleton, List.mem_singleton, true_and]
        refine ⟨⟨hids, ?_⟩, ⟨hone, ?_⟩⟩
        · intro a ha b hb; subst hb; exact (hfresh a ha).2
        · intro a ha b hb; subst hb; exact (hfresh a ha).1

theorem saveMusclesRoute_preserves (J : JwtCodec) (E : JsEngine) (env : Env) (db : Db) (header : Option Str)
    (body : Option (List MuscleElem))
    (hids : UniqueMuscleIds db) (hone : OneSelectionPerEmail db) :
    UniqueMuscleIds (saveMusclesRoute J E env db header body).2 ∧
      OneSelectionPerEmail (saveMusclesRoute J E env db header body).2 := by
  unfold saveMusclesRoute protectedRoute
  by_cases hn : (auth J env db header Ctx.init).nextCalls = 0
  · simp only [hn, if_true]; exact ⟨hids, hone⟩
  · simp only [hn, if_false]
    cases (auth J env db header Ctx.init).user with
    | none => exact ⟨hids, hone⟩
    | some user => exact saveMuscles_preserves E env db user body hids hone

theorem saveMusclesAll_preserves (J : JwtCodec) (E : JsEngine)
    (reqs : List (Env × Option Str × Option (List MuscleElem))) :
    ∀ db, UniqueMuscleIds db → OneSelectionPerEmail db →
      UniqueMuscleIds (saveMusclesAll J E db reqs) ∧
        OneSelectionPerEmail (saveMusclesAll J E db reqs) := by
  induction reqs with
  | nil => intro db hids hone; exact ⟨hids, hone⟩
  | cons r rest ih =>
    intro db hids hone
    obtain ⟨env, header, body⟩ := r
    have h := saveMusclesRoute_preserves J E env db header body hids hone
    exact ih _ h.1 h.2

theorem padDigits_length (width : Nat) : ∀ n, (padDigits width n).length = width := by
  induction width with
  | zero => intro n; rfl
  | succ w ih => intro n; simp [padDigits, ih]

theorem isoDate_length (t : Int) :
    (isoDate t).length =
      if 0 ≤ (civilFromDays (t / 86400000)).1 ∧ (civilFromDays (t / 86400000)).1 ≤ 9999 then 10
      else 13 := by
  unfold isoDate isoYear
  by_cases h : 0 ≤ (civilFromDays (t / 86400000)).1 ∧ (civilFromDays (t / 86400000)).1 ≤ 9999
  · simp [h, padDigits_length]
  · simp only [h, if_false]
    simp [padDigits_length]

/-! ## The claims -/

/-- Claim C1, counterexample: with the header `Bearer <token>` of a token that
is present, verifies and names an existing user, `auth` still answers 401 when
the lookup of the user rejects. -/
theorem auth_401_on_store_failure :
    noToken (extractToken (some (bearer ++ exToken))) = false ∧
    verifyHeader refCodec exEnvStoreDown (some (bearer ++ exToken)) =
      .ok { payload := { userId := 1, email := some "a@b.com".toList }
            iat := 1000, exp := 605800, key := "k".toList } ∧
    exDb.users.find? (fun u => decide (u._id = 1)) = some exUser ∧
    auth refCodec exEnvStoreDown exDb (some (bearer ++ exToken)) Ctx.init =
      { responses := [{ status := 401, body := .message msgInvalidToken }]
        nextCalls := 0, user := none } := by
  decide

/-- Claim C1, amended: `auth` answers 401 exactly when there is no token, the
verification of the token fails, or the queries of the store reject; it answers
404 exactly when the token verifies and the lookup completes without finding a
user of the token's `userId`; in every other case it writes nothing, calls
`next` once, and `req.user` is `{userId, email, name}` of the stored user with
that `_id`. -/
theorem auth_outcomes (J : JwtCodec) (env : Env) (db : Db) (header : Option Str) :
    ((auth J env db header Ctx.init).statuses = [401] ↔
      (noToken (extractToken header) = true ∨
        (∃ e, verifyHeader J env header = .error e) ∨ env.findFails = true)) ∧
    ((auth J env db header Ctx.init).statuses = [404] ↔
      (noToken (extractToken header) = false ∧ env.findFails = false ∧
        ∃ t, verifyHeader J env header = .ok t ∧ ∀ u ∈ db.users, u._id ≠ t.payload.userId)) ∧
    ((auth J env db header Ctx.init).statuses ≠ [401] →
      (auth J env db header Ctx.init).statuses ≠ [404] →
      ∃ t u, verifyHeader J env header = .ok t ∧ u ∈ db.users ∧ u._id = t.payload.userId ∧
        auth J env db header Ctx.init =
          { responses := [], nextCalls := 1
            user := some { userId := u._id, email := u.email, name := u.name } }) := by
  rw [auth_eq]
  by_cases h : noToken (extractToken header) = true
  · simp [h, Ctx.statuses, Ctx.send, Ctx.init]
  · cases hv : verifyHeader J env header with
    | error e => simp [h, Ctx.statuses, Ctx.send, Ctx.init]
    | ok t =>
      by_cases hf : env.findFails = true
      · simp [h, hf, Ctx.statuses, Ctx.send, Ctx.init]
      · cases hu : db.users.find? (fun u => decide (u._id = t.payload.userId)) with
        | none =>
          have hall : ∀ u ∈ db.users, u._id ≠ t.payload.userId := by
            intro u hm
            have := List.find?_eq_none.mp hu u hm
            simpa using this
          simp [h, hf, hu, Ctx.statuses, Ctx.send, Ctx.init]
          exact hall
        | some u =>
          have hm : u ∈ db.users := List.mem_of_find?_eq_some hu
          have hid : u._id = t.payload.userId := by
            have := List.find?_some hu
            simpa using this
          simp [h, hf, hu, Ctx.statuses, Ctx.attached, Ctx.next, Ctx.init]
          exact ⟨⟨u, hm, hid⟩, u, hm, hid, rfl, rfl, rfl⟩

/-- Claim C2, counterexample: `Bearer ` is removed from inside a header, and a
header that is a validly signed token without `Bearer ` is verified and
accepted, whereas the request without header gets the 401 of the missing
token. -/
theorem auth_accepts_bare_token :
    extractToken (some ("x".toList ++ (bearer ++ exToken))) = some ("x".toList ++ exToken) ∧
    jsIncludes bearer exToken = false ∧
    auth refCodec exEnv exDb (some exToken) Ctx.init =
      { responses := [], nextCalls := 1
        user := some { userId := 1, email := "a@b.com".toList, name := "A".toList } } ∧
    auth refCodec exEnv exDb none Ctx.init =
      { responses := [{ status := 401, body := .message msgNoToken }]
        nextCalls := 0, user := none } := by
  decide

/-- Claim C2, amended: the token that `auth` takes from a header is the header
without its first occurrence of `Bearer `, wherever that occurrence is: a header
`a ++ "Bearer " ++ b` in which no occurrence starts inside `a` gives the token
`a ++ b` and is handled as `"Bearer " ++ a ++ b`.  A header value gets the
outcome of the request without `Authorization` header exactly when it is empty
or is `Bearer ` alone; a header in which `Bearer ` does not occur is handled as
the same text preceded by `Bearer `, that is, it is itself verified as the
token. -/
theorem auth_bearer_handling (J : JwtCodec) (env : Env) (db : Db) (c : Ctx) (h : Str) :
    (auth J env db (some h) c = auth J env db none c ↔ (h = [] ∨ h = bearer)) ∧
    (jsIncludes bearer h = false →
      auth J env db (some h) c = auth J env db (some (bearer ++ h)) c) ∧
    (∀ a b : Str,
      (∀ i, i < a.length → bearer.isPrefixOf ((a ++ (bearer ++ b)).drop i) = false) →
      extractToken (some (a ++ (bearer ++ b))) = some (a ++ b) ∧
      auth J env db (some (a ++ (bearer ++ b))) c =
        auth J env db (some (bearer ++ (a ++ b))) c) := by
  refine ⟨?_, ?_, ?_⟩
  · rw [← noToken_extractToken]
    rw [auth_eq J env db (some h), auth_eq J env db none]
    have hnone : noToken (extractToken none) = true := rfl
    simp only [hnone, if_true]
    by_cases hn : noToken (extractToken (some h)) = true
    · simp [hn]
    · simp only [hn, if_false, iff_false]
      have hmsg1 : msgInvalidToken ≠ msgNoToken := by decide
      have hmsg2 : (404 : Nat) ≠ 401 := by decide
      cases verifyHeader J env (some h) with
      | error e => simp [Ctx.send, hmsg1]
      | ok t =>
        by_cases hf : env.findFails = true
        · simp [hf, Ctx.send, hmsg1]
        · cases hu : db.users.find? (fun u => decide (u._id = t.payload.userId)) with
          | none => simp [hf, hu, Ctx.send]
          | some u => simp [hf, hu, Ctx.send, Ctx.attached, Ctx.next]
  · intro hinc
    have h1 : extractToken (some h) = some h := by
      simp [extractToken]
      exact jsReplace_of_not_includes bearer [] (by decide) h hinc
    have h2 : extractToken (some (bearer ++ h)) = some h := by
      simp [extractToken]
      exact jsReplace_append_self bearer h (by decide)
    simp [auth, h1, h2]
  · intro a b hfirst
    have h1 : extractToken (some (a ++ (bearer ++ b))) = some (a ++ b) := by
      simp only [extractToken, Option.map_some']
      exact congrArg some (jsReplace_first_occurrence bearer (by decide) a b hfirst)
    have h2 : extractToken (some (bearer ++ (a ++ b))) = some (a ++ b) := by
      simp only [extractToken, Option.map_some']
      exact congrArg some (jsReplace_append_self bearer (a ++ b) (by decide))
    exact ⟨h1, by simp only [auth, h1, h2]⟩

/-- Claim C3: from a fresh request, `auth` either calls `next` exactly once
with `req.user` set and no response written, or writes exactly one response
(401 or 404), does not call `next` and leaves `req.user` unset, and then the
handler of the route adds nothing. -/
theorem auth_next_or_reject (J : JwtCodec) (env : Env) (db : Db) (header : Option Str) :
    ((auth J env db header Ctx.init).nextCalls = 1 ∧
      (auth J env db header Ctx.init).user.isSome = true ∧
      (auth J env db header Ctx.init).responses = []) ∨
    ((auth J env db header Ctx.init).nextCalls = 0 ∧
      (auth J env db header Ctx.init).user = none ∧
      (∃ r, (auth J env db header Ctx.init).responses = [r] ∧ (r.status = 401 ∨ r.status = 404)) ∧
      authMe J env db header = auth J env db header Ctx.init) := by
  unfold authMe
  rw [auth_eq]
  by_cases h : noToken (extractToken header) = true
  · simp [h, Ctx.send, Ctx.init]
  · cases hv : verifyHeader J env header with
    | error e => simp [h, Ctx.send, Ctx.init]
    | ok t =>
      by_cases hf : env.findFails = true
      · simp [h, hf, Ctx.send, Ctx.init]
      · cases hu : db.users.find? (fun u => decide (u._id = t.payload.userId)) with
        | none => simp [h, hf, hu, Ctx.send, Ctx.init]
        | some u => simp [h, hf, hu, Ctx.attached, Ctx.next, Ctx.init]

/-- Claim C4: when the store holds a user whose email is the normalised
submitted email and the lookup completes, the answer of `POST /auth/register`
is 400 and the store is unchanged; when the store has changed, one user was
appended and the answer is 201 with the token and the `id`, `email`, `name` of
that user; when the lookup rejects, or finds nothing and `save()` fails
(validation, hashing or the write), the answer is the generic 500 without
token and the store is unchanged. -/
theorem register_outcomes (J : JwtCodec) (E : JsEngine) (env : Env) (db : Db) (body : Credentials) :
    (∀ e u, body.email = some e → env.findFails = false → u ∈ db.users →
      u.email = normalizeEmail E e →
      register J E env db body = ({ status := 400, body := .message msgUserExists }, db)) ∧
    ((register J E env db body).2 ≠ db →
      ∃ user, (register J E env db body).2 = { db with users := db.users ++ [user] } ∧
        (register J E env db body).1 =
          { status := 201
            body := .session (jwtSign J { userId := user._id, email := some user.email }
                (jwtSecret env) env.now)
              [("id", .num user._id), ("email", .str user.email), ("name", .str user.name)] }) ∧
    ((env.findFails = true ∨
        (User.findOne E env db body.email = .ok none ∧
          ∃ e, (newUser E env body.email body.password body.name).save env db = .error e)) →
      register J E env db body = ({ status := 500, body := .message msgRegisterError }, db) ∧
        (register J E env db body).1.body.token? = none) := by
  obtain ⟨h1, h2, h3⟩ := register_by_lookup J E env db body
  refine ⟨?_, h2, ?_⟩
  · intro e u hb hup hm he
    obtain ⟨v, hv⟩ := User.findOne_of_mem E env db e u hup hm he
    exact h1 v (by rw [hb]; exact hv)
  · intro h
    apply h3
    rcases h with hdown | hsave
    · exact Or.inl ⟨.store, by simp [User.findOne, hdown]⟩
    · exact Or.inr hsave

/-- Claim C5, evaluation at the failing input: for the registration and the
login of `{email: "a@b.com", password: "secret1", name: "A"}`, `about.js` puts
the whole document in the response, with the field `password` holding the
stored digest, while the `user` object of `index.js` has no such field. -/
theorem about_returns_password_digest :
    (aboutRegister refCodec asciiEngine exEnv emptyDb exCredentials).1.status = 201 ∧
    (aboutRegister refCodec asciiEngine exEnv emptyDb exCredentials).1.body.user? = some (userJson exUser) ∧
    (aboutRegister refCodec asciiEngine exEnv emptyDb exCredentials).2 = exDb ∧
    (aboutLogin refCodec asciiEngine exEnv exDb exCredentials).status = 200 ∧
    (aboutLogin refCodec asciiEngine exEnv exDb exCredentials).body.user? = some (userJson exUser) ∧
    JObj.hasField (userJson exUser) "password" = true ∧
    (userJson exUser).lookup "password" = some (.password (.bcrypt 8 7 "secret1".toList)) ∧
    (register refCodec asciiEngine exEnv emptyDb exCredentials).1.body.user? = some (userView exUser) ∧
    (login refCodec asciiEngine exEnv exDb exCredentials).body.user? = some (userView exUser) ∧
    JObj.hasField (userView exUser) "password" = false := by
  decide

/-- Claim C6, counterexample: the body `{email: "a@b.com"}`, which carries no
password, is answered 401 `Invalid email or password!` when no user has that
email and 500 `Error logging in. Please try again later.` when one has, because
`bcrypt.compare` rejects a candidate that is not a string; and a password that
differs from the registered one after its 72nd byte only is answered 200. -/
theorem login_without_password_tells_emails_apart :
    User.findOne asciiEngine exEnv emptyDb (some "a@b.com".toList) = .ok none ∧
    login refCodec asciiEngine exEnv emptyDb
        { email := some "a@b.com".toList, password := none, name := none } =
      { status := 401, body := .message "Invalid email or password!".toList } ∧
    User.findOne asciiEngine exEnv exDb (some "a@b.com".toList) = .ok (some exUser) ∧
    exUser.comparePassword exEnv none = .error .hashing ∧
    login refCodec asciiEngine exEnv exDb
        { email := some "a@b.com".toList, password := none, name := none } =
      { status := 500, body := .message "Error logging in. Please try again later.".toList } ∧
    exLongPassword ≠ exLongCandidate ∧
    (login refCodec asciiEngine exEnv
        { emptyDb with users := [{ exUser with password := .bcrypt 8 7 exLongPassword }] }
        { email := some "a@b.com".toList, password := some exLongCandidate,
          name := none }).status = 200 := by
  decide

/-- Claim C6, amended: a login whose lookup finds no user and a login whose
lookup finds a user for whom `bcrypt.compare` resolves to false on the submitted
password get the same response, of status 401 and with the same body. -/
theorem login_failures_indistinguishable (J : JwtCodec) (E : JsEngine) (env1 env2 : Env) (db1 db2 : Db)
    (body1 body2 : Credentials) (u : User)
    (habsent : User.findOne E env1 db1 body1.email = .ok none)
    (hfound : User.findOne E env2 db2 body2.email = .ok (some u))
    (hwrong : u.comparePassword env2 body2.password = .ok false) :
    login J E env1 db1 body1 = login J E env2 db2 body2 ∧
    (login J E env1 db1 body1).status = 401 ∧
    (login J E env1 db1 body1).body = .message msgBadLogin := by
  simp [login, loginTry, habsent, hfound, hwrong]

/-- Claim C6, witness: an unknown email against a known email with the
password `wrong-pw`. -/
theorem login_failures_indistinguishable_witness :
    login refCodec asciiEngine exEnv emptyDb exCredentials =
        login refCodec asciiEngine exEnv exDb { exCredentials with password := some "wrong-pw".toList } ∧
      (login refCodec asciiEngine exEnv emptyDb exCredentials).status = 401 ∧
      (login refCodec asciiEngine exEnv emptyDb exCredentials).body = .message msgBadLogin :=
  login_failures_indistinguishable refCodec asciiEngine exEnv exEnv emptyDb exDb exCredentials
    { exCredentials with password := some "wrong-pw".toList } exUser
    (by decide) (by decide) (by decide)

/-- Claim C7: when a registration with `e1` has succeeded, a registration with
an email `e2` of the same normalised form (trimmed, then lower-cased by the
engine), whose lookup completes, answers 400 `User already exists` and leaves
the store as it is; and no sequence of registrations brings two users of the
same stored email into a store whose emails are normalised and distinct, so
that, normalisation being idempotent, no two users of the store have the same
normalised email. -/
theorem duplicate_normalized_email_rejected (J : JwtCodec) (E : JsEngine) (env1 env2 : Env) (db : Db)
    (e1 e2 : Str) (p1 p2 n1 n2 : Option Str)
    (hnorm : normalizeEmail E e1 = normalizeEmail E e2)
    (hfirst : (register J E env1 db { email := some e1, password := p1, name := n1 }).1.status = 201)
    (hlookup : env2.findFails = false) :
    register J E env2 (register J E env1 db { email := some e1, password := p1, name := n1 }).2
        { email := some e2, password := p2, name := n2 } =
      ({ status := 400, body := .message msgUserExists },
        (register J E env1 db { email := some e1, password := p1, name := n1 }).2) ∧
    (∀ (db0 : Db) (reqs : List (Env × Credentials)),
      EmailsNormalized E db0 → UniqueEmails db0 →
        EmailsNormalized E (registerAll J E db0 reqs) ∧
        UniqueEmails (registerAll J E db0 reqs)) ∧
    (∀ (db0 : Db) (reqs : List (Env × Credentials)),
      (∀ s, normalizeEmail E (normalizeEmail E s) = normalizeEmail E s) →
      EmailsNormalized E db0 → UniqueEmails db0 →
        UniqueNormalizedEmails E (registerAll J E db0 reqs)) := by
  refine ⟨?_, ?_, ?_⟩
  · obtain ⟨user, e, he, hemail, hmem⟩ := register_status_201 J E env1 db _ hfirst
    simp at he
    subst he
    generalize (register J E env1 db { email := some e1, password := p1, name := n1 }).2 = db1 at hmem ⊢
    have hfind : ∃ u, db1.users.find? (fun u => decide (u.email = normalizeEmail E e2)) = some u := by
      cases hq : db1.users.find? (fun u => decide (u.email = normalizeEmail E e2)) with
      | some u => exact ⟨u, rfl⟩
      | none =>
        have := List.find?_eq_none.mp hq user hmem
        simp [hemail, hnorm] at this
    obtain ⟨u, hu⟩ := hfind
    simp [register, registerTry, User.findOne, hlookup, hu]
  · intro db0 reqs hn hu
    exact registerAll_preserves J E reqs db0 hn hu
  · intro db0 reqs hidem hn hu
    have h := registerAll_preserves J E reqs db0 hn hu
    exact uniqueNormalized_of_unique E _ hidem h.1 h.2

/-- Claim C7, witness: `A@x.com`, then ` a@x.com` followed by a blank and a
no-break space; the store after both requests has distinct normalised emails. -/
theorem duplicate_normalized_email_rejected_witness :
    normalizeEmail asciiEngine "A@x.com".toList =
      normalizeEmail asciiEngine " a@x.com \u00a0".toList ∧
    register refCodec asciiEngine { exEnv with newId := 2 }
        (register refCodec asciiEngine exEnv emptyDb
          { email := some "A@x.com".toList, password := some "secret1".toList,
            name := some "A".toList }).2
        { email := some " a@x.com \u00a0".toList, password := some "secret2".toList,
          name := some "B".toList } =
      ({ status := 400, body := .message msgUserExists },
        (register refCodec asciiEngine exEnv emptyDb
          { email := some "A@x.com".toList, password := some "secret1".toList,
            name := some "A".toList }).2) ∧
    UniqueNormalizedEmails asciiEngine
      (registerAll refCodec asciiEngine emptyDb
        [(exEnv, { email := some "A@x.com".toList, password := some "secret1".toList,
                   name := some "A".toList }),
         ({ exEnv with newId := 2 },
          { email := some " a@x.com \u00a0".toList, password := some "secret2".toList,
            name := some "B".toList })]) :=
  have h := duplicate_normalized_email_rejected refCodec asciiEngine exEnv
    { exEnv with newId := 2 } emptyDb
    "A@x.com".toList " a@x.com \u00a0".toList (some "secret1".toList) (some "secret2".toList)
    (some "A".toList) (some "B".toList) (by decide) (by decide) (by decide)
  ⟨by decide, h.1,
    h.2.2 emptyDb _ normalizeEmail_ascii_idem (fun _ hu => nomatch hu) List.Pairwise.nil⟩

/-- Claim C8: a token returned by `POST /auth/register` or `POST /auth/login`
decodes to the payload `{userId, email}` of a stored user, whose email is the
normalised form of the submitted one, with `iat` the time of issue and
`exp = iat + 604800`. -/
theorem issued_token_claims (J : JwtCodec) (E : JsEngine) (env : Env) (db : Db) (body : Credentials) (tok : Str) :
    ((register J E env db body).1.body.token? = some tok →
      ∃ user e, user ∈ (register J E env db body).2.users ∧ body.email = some e ∧
        user.email = normalizeEmail E e ∧
        J.decode tok = some { payload := { userId := user._id, email := some user.email }
                              iat := env.now, exp := env.now + 604800, key := jwtSecret env }) ∧
    ((login J E env db body).body.token? = some tok →
      ∃ user e, user ∈ db.users ∧ body.email = some e ∧ user.email = normalizeEmail E e ∧
        J.decode tok = some { payload := { userId := user._id, email := some user.email }
                              iat := env.now, exp := env.now + 604800, key := jwtSecret env }) := by
  constructor
  · unfold register registerTry
    cases hf : User.findOne E env db body.email with
    | error e => simp [Body.token?]
    | ok o =>
      cases o with
      | some u => simp [Body.token?]
      | none =>
        cases hs : (newUser E env body.email body.password body.name).save env db with
        | error e => simp [Body.token?]
        | ok r =>
          obtain ⟨user, db'⟩ := r
          have hok := UserDoc.save_ok hs
          simp only [Body.token?]
          intro htok
          simp at htok
          subst htok
          have hemail := hok.1
          simp only [newUser] at hemail
          cases hb : body.email with
          | none => simp [hb] at hemail
          | some e =>
            simp [hb] at hemail
            refine ⟨user, e, ?_, rfl, hemail.symm, ?_⟩
            · rw [hok.2.2.2.2.2.2.2.2.1]; simp
            · simp [jwtSign, J.decode_encode, ms7d]
  · unfold login loginTry
    cases hf : User.findOne E env db body.email with
    | error e => simp [Body.token?]
    | ok o =>
      cases o with
      | none => simp [Body.token?]
      | some u =>
        cases hc : u.comparePassword env body.password with
        | error e => simp [hc, Body.token?]
        | ok b =>
          cases b with
          | false => simp [hc, Body.token?]
          | true =>
            simp only [hc, Body.token?]
            intro htok
            simp at htok
            subst htok
            unfold User.findOne at hf
            by_cases hff : env.findFails = true
            · simp [hff] at hf
            · cases hb : body.email with
              | none => simp [hff, hb] at hf
              | some e =>
                simp [hff, hb] at hf
                have hm : u ∈ db.users := List.mem_of_find?_eq_some hf
                have he : u.email = normalizeEmail E e := by
                  have := List.find?_some hf
                  simpa using this
                exact ⟨u, e, hm, rfl, he, by simp [jwtSign, J.decode_encode, ms7d]⟩

/-- Claim C9: for an email that is not empty once normalised (trimmed, then
lower-cased by the engine) and not yet registered, a password of at least 6
UTF-16 code units and a name that is not empty,
with a fresh `_id` and store and hasher in working order, registration answers
201, login with the same email and password answers 200, and the token of the
login, sent as `Bearer <token>` before its expiry to a server with the same
secret, makes `auth` attach the identity of the registered user, which
`GET /auth/me` returns with status 200. -/
theorem register_login_auth (J : JwtCodec) (E : JsEngine) (env1 env2 env3 : Env) (db : Db) (e p n : Str)
    (nm : Option Str)
    (hemail : normalizeEmail E e ≠ []) (hpw : 6 ≤ jsLength p) (hname : n ≠ [])
    (hnew : ∀ u ∈ db.users, u.email ≠ normalizeEmail E e)
    (hid : ∀ u ∈ db.users, u._id ≠ env1.newId)
    (hok1 : env1.findFails = false ∧ env1.hashFails = false ∧ env1.saveFails = false)
    (hok2 : env2.findFails = false ∧ env2.hashFails = false)
    (hok3 : env3.findFails = false)
    (hkey : jwtSecret env3 = jwtSecret env2)
    (hwindow : env3.now < env2.now + 604800) :
    (register J E env1 db { email := some e, password := some p, name := some n }).1.status = 201 ∧
    (login J E env2 (register J E env1 db { email := some e, password := some p, name := some n }).2
        { email := some e, password := some p, name := nm }).status = 200 ∧
    ∃ tok,
      (login J E env2 (register J E env1 db { email := some e, password := some p, name := some n }).2
        { email := some e, password := some p, name := nm }).body.token? = some tok ∧
      auth J env3 (register J E env1 db { email := some e, password := some p, name := some n }).2
          (some (bearer ++ tok)) Ctx.init =
        { responses := [], nextCalls := 1
          user := some { userId := env1.newId, email := normalizeEmail E e, name := n } } ∧
      (authMe J env3 (register J E env1 db { email := some e, password := some p, name := some n }).2
          (some (bearer ++ tok))).responses =
        [{ status := 200
           body := .identity { userId := env1.newId, email := normalizeEmail E e, name := n } }] := by
  obtain ⟨hf1, hh1, hs1⟩ := hok1
  obtain ⟨hf2, hh2⟩ := hok2
  have hnone : db.users.find? (fun u => decide (u.email = normalizeEmail E e)) = none := by
    rw [List.find?_eq_none]
    intro u hu
    simpa using hnew u hu
  have hsave := UserDoc.save_succeeds env1 db (newUser E env1 (some e) (some p) (some n))
    (normalizeEmail E e) p n rfl hemail rfl hpw rfl hname hh1 hs1
    (fun u hu => ⟨hid u hu, hnew u hu⟩)
  have hreg : register J E env1 db { email := some e, password := some p, name := some n } =
      ({ status := 201
         body := .session (jwtSign J { userId := env1.newId, email := some (normalizeEmail E e) }
           (jwtSecret env1) env1.now)
           (userView (registeredUser env1 (normalizeEmail E e) p n)) },
       { db with users := db.users ++ [(registeredUser env1 (normalizeEmail E e) p n)] }) := by
    simp only [register, registerTry, User.findOne, hf1, hnone]
    simp only [Bool.false_eq_true, if_false, hsave]
    rfl
  rw [hreg]
  simp only
  have hfindE : (db.users ++ [registeredUser env1 (normalizeEmail E e) p n]).find?
      (fun u => decide (u.email = normalizeEmail E e)) =
      some (registeredUser env1 (normalizeEmail E e) p n) :=
    find_append_singleton_of_fresh _ _ _ (fun u hu => by simpa using hnew u hu)
      (by simp [registeredUser])
  have hfindI : (db.users ++ [registeredUser env1 (normalizeEmail E e) p n]).find?
      (fun u => decide (u._id = env1.newId)) =
      some (registeredUser env1 (normalizeEmail E e) p n) :=
    find_append_singleton_of_fresh _ _ _ (fun u hu => by simpa using hid u hu)
      (by simp [registeredUser])
  have hlogin : login J E env2 { db with users := db.users ++ [registeredUser env1 (normalizeEmail E e) p n] }
      { email := some e, password := some p, name := nm } =
      { status := 200
        body := .session (jwtSign J { userId := env1.newId, email := some (normalizeEmail E e) }
          (jwtSecret env2) env2.now)
          (userView (registeredUser env1 (normalizeEmail E e) p n)) } := by
    simp only [login, loginTry, User.findOne, hf2, Bool.false_eq_true, if_false, hfindE]
    simp [User.comparePassword, bcryptCompare, hh2, registeredUser]
  rw [hlogin]
  refine ⟨by simp, by simp, _, rfl, ?_⟩
  have hauth : auth J env3 { db with users := db.users ++ [registeredUser env1 (normalizeEmail E e) p n] }
      (some (bearer ++ jwtSign J { userId := env1.newId, email := some (normalizeEmail E e) }
          (jwtSecret env2) env2.now)) Ctx.init =
      { responses := [], nextCalls := 1
        user := some { userId := env1.newId, email := normalizeEmail E e, name := n } } := by
    have htok : extractToken (some (bearer ++ jwtSign J
        { userId := env1.newId, email := some (normalizeEmail E e) } (jwtSecret env2) env2.now)) =
        some (jwtSign J { userId := env1.newId, email := some (normalizeEmail E e) }
          (jwtSecret env2) env2.now) := by
      simp only [extractToken, Option.map_some']
      exact congrArg some (jsReplace_append_self bearer _ (by decide))
    have hne : noToken (some (jwtSign J { userId := env1.newId, email := some (normalizeEmail E e) }
          (jwtSecret env2) env2.now)) = false := by
      simp [noToken, jwtSign, J.encode_ne_nil]
    have hnw : ¬ (env2.now + 604800 ≤ env3.now) := by omega
    have hv : verifyHeader J env3 (some (bearer ++ jwtSign J
        { userId := env1.newId, email := some (normalizeEmail E e) } (jwtSecret env2) env2.now)) =
        .ok { payload := { userId := env1.newId, email := some (normalizeEmail E e) }
              iat := env2.now, exp := env2.now + 604800, key := jwtSecret env2 } := by
      simp only [verifyHeader, htok, Option.getD_some]
      simp only [jwtVerify, jwtSign, J.decode_encode]
      simp [hkey, ms7d, hnw]
    rw [auth_eq]
    simp only [htok, hne, hv, hok3, hfindI]
    simp [Ctx.attached, Ctx.next, Ctx.init, registeredUser]
  refine ⟨hauth, ?_⟩
  simp [authMe, hauth, Ctx.send]

/-- Claim C9, witness: the credentials of the end-to-end example of the
specification, login at time 2000, the protected call at time 600000. -/
theorem register_login_auth_witness :
    (register refCodec asciiEngine exEnv emptyDb exCredentials).1.status = 201 ∧
    (login refCodec asciiEngine exEnvLater (register refCodec asciiEngine exEnv emptyDb exCredentials).2
        { email := some "a@b.com".toList, password := some "secret1".toList, name := none }).status
      = 200 ∧
    ∃ tok,
      (login refCodec asciiEngine exEnvLater (register refCodec asciiEngine exEnv emptyDb exCredentials).2
        { email := some "a@b.com".toList, password := some "secret1".toList, name := none }
        ).body.token? = some tok ∧
      auth refCodec exEnvLast (register refCodec asciiEngine exEnv emptyDb exCredentials).2
          (some (bearer ++ tok)) Ctx.init =
        { responses := [], nextCalls := 1
          user := some { userId := 1, email := normalizeEmail asciiEngine "a@b.com".toList
                         name := "A".toList } } ∧
      (authMe refCodec exEnvLast (register refCodec asciiEngine exEnv emptyDb exCredentials).2
          (some (bearer ++ tok))).responses =
        [{ status := 200
           body := .identity { userId := 1, email := normalizeEmail asciiEngine "a@b.com".toList
                               name := "A".toList } }] :=
  register_login_auth refCodec asciiEngine exEnv exEnvLater exEnvLast emptyDb "a@b.com".toList
    "secret1".toList "A".toList none (by decide) (by decide) (by decide)
    (by simp [emptyDb]) (by simp [emptyDb]) (by decide) (by decide) (by decide) (by decide)
    (by decide)

/-- Claim C10, evaluation at the failing inputs: `POST /auth/register` with a
missing email, password or name or a password of 5 characters, the
authenticated `POST /api/journal` and `POST /api/savePostExperience` without
`journalEntry`, and the authenticated `POST /api/save-muscles` with a
non-string element all answer 500, and nothing is stored; `about.js` answers
400 to the same registrations, and the field checks of the two routes of
`index.js` answer 400 to an empty `journalEntry` and to an unknown muscle. -/
theorem malformed_bodies_answer_500 :
    register refCodec asciiEngine exEnv emptyDb { exCredentials with email := none } =
      ({ status := 500, body := .message msgRegisterError }, emptyDb) ∧
    register refCodec asciiEngine exEnv emptyDb { exCredentials with password := none } =
      ({ status := 500, body := .message msgRegisterError }, emptyDb) ∧
    register refCodec asciiEngine exEnv emptyDb { exCredentials with name := none } =
      ({ status := 500, body := .message msgRegisterError }, emptyDb) ∧
    register refCodec asciiEngine exEnv emptyDb { exCredentials with password := some "short".toList } =
      ({ status := 500, body := .message msgRegisterError }, emptyDb) ∧
    (aboutRegister refCodec asciiEngine exEnv emptyDb { exCredentials with email := none }).1.status = 400 ∧
    (aboutRegister refCodec asciiEngine exEnv emptyDb
      { exCredentials with password := some "short".toList }).1.status = 400 ∧
    journalRoute refCodec (fun _ => none) exEnv exDb (some (bearer ++ exToken)) none =
      ({ responses := [{ status := 500, body := .message msgInternal }], nextCalls := 1
         user := some { userId := 1, email := "a@b.com".toList, name := "A".toList } }, exDb) ∧
    savePostExperienceRoute refCodec exEnv exDb (some (bearer ++ exToken)) none =
      ({ responses := [{ status := 500, body := .message msgInternal }], nextCalls := 1
         user := some { userId := 1, email := "a@b.com".toList, name := "A".toList } }, exDb) ∧
    saveMusclesRoute refCodec asciiEngine exEnv exDb (some (bearer ++ exToken))
        (some [.str "CHEST".toList, .other]) =
      ({ responses := [{ status := 500, body := .message msgInternal }], nextCalls := 1
         user := some { userId := 1, email := "a@b.com".toList, name := "A".toList } }, exDb) ∧
    (journalRoute refCodec (fun _ => none) exEnv exDb (some (bearer ++ exToken))
        (some { medicine := none, intention := none, experienceDate := none
                currentState := none, postExperience := none })).1.responses =
      [{ status := 400, body := .message msgAllFields }] ∧
    (saveMusclesRoute refCodec asciiEngine exEnv exDb (some (bearer ++ exToken))
        (some [.str "CHEST".toList, .str "wing".toList])).1.responses =
      [{ status := 400, body := .message "Invalid muscles: WING".toList }] := by
  decide

/-- Claim C11, evaluation at the failing input: `POST /api/story-answers` is
registered without `auth`; a request without any token, naming another
person's email in its body, is answered 201 and a `Journey` with that email is
stored.  The sibling routes answer 401 to a request without token and store
nothing. -/
theorem story_answers_without_auth :
    storyAnswers exEnv exDb { email := some "victim@x.com".toList, levels := some [] } =
      ({ status := 201
         body := .saved msgJourneySaved
           (journeyJson { _id := 1, email := "victim@x.com".toList, levels := []
                          createdAt := 1000 }) },
       { exDb with journeys := [{ _id := 1, email := "victim@x.com".toList, levels := []
                                  createdAt := 1000 }] }) ∧
    saveAnswersRoute refCodec exEnv exDb none (some []) =
      ({ responses := [{ status := 401, body := .message msgNoToken }]
         nextCalls := 0, user := none }, exDb) ∧
    saveAudioRoute refCodec exEnv exDb none (some "x".toList) =
      ({ responses := [{ status := 401, body := .message msgNoToken }]
         nextCalls := 0, user := none }, exDb) ∧
    journalRoute refCodec exParseDate exEnv exDb none
        (some (exJournalEntry "2024-11-04T10:30:00.000Z".toList)) =
      ({ responses := [{ status := 401, body := .message msgNoToken }]
         nextCalls := 0, user := none }, exDb) ∧
    savePostExperienceRoute refCodec exEnv exDb none
        (some (exJournalEntry "2024-11-04T10:30:00.000Z".toList)) =
      ({ responses := [{ status := 401, body := .message msgNoToken }]
         nextCalls := 0, user := none }, exDb) ∧
    saveMusclesRoute refCodec asciiEngine exEnv exDb none (some [.str "CHEST".toList]) =
      ({ responses := [{ status := 401, body := .message msgNoToken }]
         nextCalls := 0, user := none }, exDb) := by
  decide

/-- Claim C12, counterexample: with `JWT_SECRET` unset, registration returns a
token signed with `"your-secret-key"`, and `auth` accepts a token that was
signed with that key outside the server. -/
theorem unset_secret_falls_back :
    exEnvNoSecret.JWT_SECRET = none ∧
    (register refCodec asciiEngine exEnvNoSecret emptyDb exCredentials).1.status = 201 ∧
    ((register refCodec asciiEngine exEnvNoSecret emptyDb exCredentials).1.body.token?.bind
      refCodec.decode).map (fun t => t.key) = some "your-secret-key".toList ∧
    auth refCodec exEnvNoSecret exDb (some (bearer ++ exForgedToken)) Ctx.init =
      { responses := [], nextCalls := 1
        user := some { userId := 1, email := "a@b.com".toList, name := "A".toList } } := by
  decide

/-- Claim C12, amended: when `JWT_SECRET` is unset, signing and verification use
the key `"your-secret-key"` of the source: every token returned by registration
or login is signed with it; `auth` accepts every unexpired token signed with it
that names a stored user, the store answering; and `auth` answers 401 to every
token signed with another key. -/
theorem unset_secret_uses_source_key (J : JwtCodec) (E : JsEngine) (env : Env) (db : Db)
    (hunset : env.JWT_SECRET = none) :
    (∀ body tok, ((register J E env db body).1.body.token? = some tok ∨
        (login J E env db body).body.token? = some tok) →
      ∃ t, J.decode tok = some t ∧ t.key = fallbackSecret) ∧
    (∀ t : Jwt, t.key = fallbackSecret → env.now < t.exp → env.findFails = false →
      (∃ u ∈ db.users, u._id = t.payload.userId) →
      (auth J env db (some (bearer ++ J.encode t)) Ctx.init).nextCalls = 1 ∧
        (auth J env db (some (bearer ++ J.encode t)) Ctx.init).responses = []) ∧
    (∀ t : Jwt, t.key ≠ fallbackSecret →
      (auth J env db (some (bearer ++ J.encode t)) Ctx.init).statuses = [401]) := by
  have hkey : jwtSecret env = fallbackSecret := by simp [jwtSecret, hunset]
  refine ⟨?_, ?_, ?_⟩
  · intro body tok h
    obtain ⟨t, ht, hk⟩ := issued_token_key J E env db body tok h
    exact ⟨t, ht, hk.trans hkey⟩
  · intro t hk hexp hup ⟨u, hu, hid⟩
    have hne : noToken (some (J.encode t)) = false := by simp [noToken, J.encode_ne_nil]
    have hv : verifyHeader J env (some (bearer ++ J.encode t)) = .ok t := by
      have hnexp : ¬ t.exp ≤ env.now := by omega
      simp [verifyHeader, extractToken_bearer, jwtVerify, J.decode_encode, hkey, hk, hnexp]
    rw [auth_eq]
    simp only [extractToken_bearer, hne, hv, hup]
    cases hq : db.users.find? (fun u => decide (u._id = t.payload.userId)) with
    | none =>
      have := List.find?_eq_none.mp hq u hu
      simp [hid] at this
    | some v => simp [Ctx.attached, Ctx.next, Ctx.init]
  · intro t hk
    have hne : noToken (some (J.encode t)) = false := by simp [noToken, J.encode_ne_nil]
    have hv : verifyHeader J env (some (bearer ++ J.encode t)) = .error .token := by
      simp [verifyHeader, extractToken_bearer, jwtVerify, J.decode_encode, hkey, hk]
    rw [auth_eq]
    simp [extractToken_bearer, hne, hv, Ctx.statuses, Ctx.send, Ctx.init]

/-- Claim C12, witness: the environment without `JWT_SECRET` and the store
holding the sample user. -/
theorem unset_secret_uses_source_key_witness :
    (∀ body tok, ((register refCodec asciiEngine exEnvNoSecret exDb body).1.body.token? = some tok ∨
        (login refCodec asciiEngine exEnvNoSecret exDb body).body.token? = some tok) →
      ∃ t, refCodec.decode tok = some t ∧ t.key = fallbackSecret) ∧
    (∀ t : Jwt, t.key = fallbackSecret → exEnvNoSecret.now < t.exp →
      exEnvNoSecret.findFails = false →
      (∃ u ∈ exDb.users, u._id = t.payload.userId) →
      (auth refCodec exEnvNoSecret exDb (some (bearer ++ refCodec.encode t)) Ctx.init).nextCalls
          = 1 ∧
        (auth refCodec exEnvNoSecret exDb (some (bearer ++ refCodec.encode t)) Ctx.init).responses
          = []) ∧
    (∀ t : Jwt, t.key ≠ fallbackSecret →
      (auth refCodec exEnvNoSecret exDb (some (bearer ++ refCodec.encode t)) Ctx.init).statuses
        = [401]) :=
  unset_secret_uses_source_key refCodec asciiEngine exEnvNoSecret exDb (by decide)

/-- Claim C13: when `POST /auth/register` has changed the store, it has appended
one user whose `password` is the bcrypt digest of cost 8 of the submitted
password, not that text, and the submitted password has a `length` of at least
6 UTF-16 code units; for a submitted password of a `length` below 6 the store is
unchanged and the response has no token. -/
theorem stored_password_is_digest (J : JwtCodec) (E : JsEngine) (env : Env) (db : Db) (body : Credentials) :
    ((register J E env db body).2 ≠ db →
      ∃ user p, (register J E env db body).2 = { db with users := db.users ++ [user] } ∧
        body.password = some p ∧ 6 ≤ jsLength p ∧
        user.password = .bcrypt 8 env.salt p ∧ user.password ≠ .plain p) ∧
    (∀ p, body.password = some p → jsLength p < 6 →
      (register J E env db body).2 = db ∧ (register J E env db body).1.body.token? = none) := by
  unfold register registerTry
  cases hf : User.findOne E env db body.email with
  | error e => simp [Body.token?]
  | ok o =>
    cases o with
    | some u => simp [Body.token?]
    | none =>
      cases hs : (newUser E env body.email body.password body.name).save env db with
      | error e => simp [Body.token?]
      | ok r =>
        obtain ⟨user, db'⟩ := r
        have hok := UserDoc.save_ok hs
        obtain ⟨p, hp, hlen, hpw⟩ := hok.2.2.1
        simp only [newUser] at hp
        constructor
        · intro _
          exact ⟨user, p, hok.2.2.2.2.2.2.2.2.1, hp, hlen, hpw, by rw [hpw]; simp⟩
        · intro q hq hshort
          rw [hp] at hq
          simp at hq
          subst hq
          omega

/-- Claim C13, witness: the password of three code points `U+1F600`, of `length`
6, is stored as its digest; with the password `short` nothing is stored and no
token is returned. -/
theorem stored_password_is_digest_witness :
    exAstralPassword.length = 3 ∧ jsLength exAstralPassword = 6 ∧
    (∃ user p,
      (register refCodec asciiEngine exEnv emptyDb
          { exCredentials with password := some exAstralPassword }).2 =
        { emptyDb with users := emptyDb.users ++ [user] } ∧
      some exAstralPassword = some p ∧ 6 ≤ jsLength p ∧
      user.password = .bcrypt 8 exEnv.salt p ∧ user.password ≠ .plain p) ∧
    ((register refCodec asciiEngine exEnv emptyDb
        { exCredentials with password := some "short".toList }).2 = emptyDb ∧
      (register refCodec asciiEngine exEnv emptyDb
        { exCredentials with password := some "short".toList }).1.body.token? = none) :=
  ⟨by decide, by decide,
    (stored_password_is_digest refCodec asciiEngine exEnv emptyDb
      { exCredentials with password := some exAstralPassword }).1 (by decide),
    (stored_password_is_digest refCodec asciiEngine exEnv emptyDb
      { exCredentials with password := some "short".toList }).2 "short".toList rfl (by decide)⟩

/-- Claim C14, counterexample: in production mode two errors that differ in
their message get responses with those two messages. -/
theorem production_message_is_error_message :
    exEnvProduction.NODE_ENV = some "production".toList ∧
    errorHandler exEnvProduction
        { message := "E11000 duplicate key error collection: test.users".toList
          stack := "at insert".toList } 200 =
      { status := 500
        body := .failure "E11000 duplicate key error collection: test.users".toList none } ∧
    errorHandler exEnvProduction
        { message := "connect ECONNREFUSED 127.0.0.1:27017".toList
          stack := "at insert".toList } 200 =
      { status := 500, body := .failure "connect ECONNREFUSED 127.0.0.1:27017".toList none } := by
  decide

/-- Claim C14, amended: the status written by `errorHandler` is 500 when the
status of the response was 200 and is otherwise that status, so it is never
200; in production mode the body has `stack: null` and, as in every mode, the
message of the error itself. -/
theorem error_handler_response (env : Env) (err : JsError) (statusCode : Nat) :
    (errorHandler env err statusCode).status = (if statusCode = 200 then 500 else statusCode) ∧
    (errorHandler env err statusCode).status ≠ 200 ∧
    (∃ stack, (errorHandler env err statusCode).body = .failure err.message stack) ∧
    (env.NODE_ENV = some "production".toList →
      (errorHandler env err statusCode).body = .failure err.message none) := by
  unfold errorHandler
  refine ⟨rfl, ?_, ⟨_, rfl⟩, ?_⟩
  · by_cases h : statusCode = 200
    · simp [h]
    · simp [h]
  · intro h
    simp [h]

/-- Claim C15, evaluation at the failing input: for the valid date
`+010000-01-01T00:00:00.000Z` the authenticated `POST /api/journal` answers 201
and stores the `experienceDate` `+010000-01-01`, of 13 characters; a date of
the year 2024 is stored as `2024-11-04`, and a text that is not a date is
answered 400 with nothing stored.  In general the formatted date has 10
characters for the years 0 to 9999 and 13 characters for every other year. -/
theorem journal_date_of_year_10000 :
    (journalRoute refCodec exParseDate exEnv exDb (some (bearer ++ exToken))
        (some (exJournalEntry "+010000-01-01T00:00:00.000Z".toList))).1.statuses = [201] ∧
    (journalRoute refCodec exParseDate exEnv exDb (some (bearer ++ exToken))
        (some (exJournalEntry "+010000-01-01T00:00:00.000Z".toList))).2.journals.map
      (fun j => j.experienceDate) = ["+010000-01-01".toList] ∧
    "+010000-01-01".toList.length = 13 ∧
    (journalRoute refCodec exParseDate exEnv exDb (some (bearer ++ exToken))
        (some (exJournalEntry "2024-11-04T10:30:00.000Z".toList))).2.journals.map
      (fun j => j.experienceDate) = ["2024-11-04".toList] ∧
    (journalRoute refCodec exParseDate exEnv exDb (some (bearer ++ exToken))
        (some (exJournalEntry "garbage".toList))).1.responses =
      [{ status := 400, body := .message msgInvalidDate }] ∧
    (journalRoute refCodec exParseDate exEnv exDb (some (bearer ++ exToken))
        (some (exJournalEntry "garbage".toList))).2 = exDb ∧
    (∀ t : Int, (isoDate t).length =
      if 0 ≤ (civilFromDays (t / 86400000)).1 ∧ (civilFromDays (t / 86400000)).1 ≤ 9999 then 10
      else 13) :=
  ⟨by decide, by decide, by decide, by decide, by decide, by decide, isoDate_length⟩

/-- Claim C16: for an authenticated user (an identity with an email) and a
`selectedMuscles` array of strings, `POST /api/save-muscles` answers 400 exactly
when some cleaned name is not in `validMuscles`; then the message is
`Invalid muscles: ` followed by the cleaned invalid names, in input order,
joined by `, `, and the store is unchanged.  When every cleaned name is valid
and store and `_id` are in order, the answer is 201 and the record of the
user holds the cleaned list; and whenever the store has changed, the answer is
201, every cleaned name is valid and the record of the user holds the cleaned
list, in the order and with the repetitions of the input. -/
theorem save_muscles_validation (E : JsEngine) (env : Env) (db : Db) (user : Identity) (names : List Str)
    (hemail : user.email ≠ []) :
    ((saveMuscles E env db user (some (names.map MuscleElem.str))).1.status = 400 ↔
      ∃ m ∈ cleanNames E names, m ∉ validMuscles) ∧
    ((∃ m ∈ cleanNames E names, m ∉ validMuscles) →
      saveMuscles E env db user (some (names.map MuscleElem.str)) =
        ({ status := 400
           body := .message ("Invalid muscles: ".toList ++ List.intercalate ", ".toList
             ((cleanNames E names).filter (fun m => m ∉ validMuscles))) }, db)) ∧
    ((∀ m ∈ cleanNames E names, m ∈ validMuscles) → env.findFails = false →
      env.saveFails = false → (∀ d ∈ db.muscleSelections, d._id ≠ env.newId) →
      (saveMuscles E env db user (some (names.map MuscleElem.str))).1.status = 201 ∧
      ∃ d ∈ (saveMuscles E env db user (some (names.map MuscleElem.str))).2.muscleSelections,
        d.email = user.email ∧ d.selectedMuscles = cleanNames E names) ∧
    ((saveMuscles E env db user (some (names.map MuscleElem.str))).2 ≠ db →
      (saveMuscles E env db user (some (names.map MuscleElem.str))).1.status = 201 ∧
      (∀ m ∈ cleanNames E names, m ∈ validMuscles) ∧
      ∃ d ∈ (saveMuscles E env db user (some (names.map MuscleElem.str))).2.muscleSelections,
        d.email = user.email ∧ d.selectedMuscles = cleanNames E names) := by
  rw [saveMuscles_eq E env db user _ (cleanNames E names) (cleanMuscles_strs E names),
    jsJoin_eq_intercalate]
  have hfilter : (cleanNames E names).filter (fun m => decide (m ∉ validMuscles)) =
      (cleanNames E names).filter (fun m => !validMuscles.contains m) :=
    List.filter_congr (fun m _ => by simp)
  rw [hfilter]
  by_cases hinv : (cleanNames E names).filter (fun m => !validMuscles.contains m) = []
  · have hall : ∀ m ∈ cleanNames E names, m ∈ validMuscles := (filter_invalid_eq_nil _).mp hinv
    have hnex : ¬ ∃ m ∈ cleanNames E names, m ∉ validMuscles := by
      rintro ⟨m, hm, hn⟩; exact hn (hall m hm)
    simp only [hinv, ne_eq, not_true_eq_false, if_false, hemail]
    by_cases hf : env.findFails = true
    · simp [hf, hnex]
    · simp only [hf, if_false]
      cases hq : db.muscleSelections.find? (fun d => decide (d.email = user.email)) with
      | some found =>
        have hfm : found ∈ db.muscleSelections := List.mem_of_find?_eq_some hq
        have hfe : found.email = user.email := by
          have := List.find?_some hq
          simpa using this
        by_cases hs : env.saveFails = true
        · simp [hs, hnex]
        · simp only [hs, if_false]
          by_cases hsame : cleanNames E names = found.selectedMuscles
          · rw [if_pos hsame]
            refine ⟨by simp [hnex], fun h => absurd h hnex, ?_, ?_⟩
            · intro _ _ _ _
              exact ⟨rfl, found, hfm, hfe, hsame.symm⟩
            · intro hne
              exact absurd rfl hne
          · rw [if_neg hsame]
            have hmem : found.assigned (cleanNames E names) ∈
                db.muscleSelections.map (fun d => if d._id = found._id then
                  found.assigned (cleanNames E names) else d) :=
              List.mem_map.mpr ⟨found, hfm, by simp⟩
            have hfields := assigned_fields found (cleanNames E names)
            refine ⟨by simp [hnex], fun h => absurd h hnex, ?_, ?_⟩
            · intro _ _ _ _
              exact ⟨rfl, _, hmem, hfields.2.1.trans hfe, hfields.2.2.1⟩
            · intro _
              exact ⟨rfl, hall, _, hmem, hfields.2.1.trans hfe, hfields.2.2.1⟩
      | none =>
        by_cases hs : env.saveFails = true
        · simp [hs, hnex]
        · by_cases hd : db.muscleSelections.any (fun d => decide (d._id = env.newId)) = true
          · simp only [hs, hd, if_false, if_true]
            refine ⟨by simp [hnex], fun h => absurd h hnex, ?_, by simp⟩
            intro _ _ _ hfresh
            exfalso
            obtain ⟨d, hdm, hdi⟩ := List.any_eq_true.mp hd
            exact hfresh d hdm (by simpa using hdi)
          · simp only [hs, hd, if_false]
            refine ⟨by simp [hnex], fun h => absurd h hnex, ?_, ?_⟩
            · intro _ _ _ _
              exact ⟨rfl, _, List.mem_append_right _ (List.mem_singleton.mpr rfl), rfl, rfl⟩
            · intro _
              exact ⟨rfl, hall, _, List.mem_append_right _ (List.mem_singleton.mpr rfl), rfl, rfl⟩
  · have hex : ∃ m ∈ cleanNames E names, m ∉ validMuscles := by
      by_contra hcon
      apply hinv
      rw [filter_invalid_eq_nil]
      intro m hm
      by_contra hn
      exact hcon ⟨m, hm, hn⟩
    have hnall : ¬ ∀ m ∈ cleanNames E names, m ∈ validMuscles := by
      intro hall
      obtain ⟨m, hm, hn⟩ := hex
      exact hn (hall m hm)
    simp only [hinv, ne_eq, not_false_eq_true, if_true]
    refine ⟨by simp [hex], by simp, fun h => absurd h hnall, by simp⟩

/-- Claim C16, witness: the user of the sample store sends ` chest`, `Abs` and
`abs`, which are saved as `CHEST`, `ABS`, `ABS`; and sends ` wing`, `Abs` and
`tail` followed by a no-break space, which is answered 400
`Invalid muscles: WING, TAIL`. -/
theorem save_muscles_validation_witness :
    (saveMuscles asciiEngine exEnv exDb { userId := 1, email := "a@b.com".toList, name := "A".toList }
        (some ([" chest".toList, "Abs".toList, "abs".toList].map MuscleElem.str))).1.status = 201 ∧
    (saveMuscles asciiEngine exEnv exDb { userId := 1, email := "a@b.com".toList, name := "A".toList }
        (some ([" chest".toList, "Abs".toList, "abs".toList].map MuscleElem.str))).2.muscleSelections
      = [{ _id := 1, email := "a@b.com".toList
           selectedMuscles := ["CHEST".toList, "ABS".toList, "ABS".toList], createdAt := 1000
           __v := 0 }] ∧
    ((saveMuscles asciiEngine exEnv exDb { userId := 1, email := "a@b.com".toList, name := "A".toList }
        (some ([" chest".toList, "Abs".toList, "abs".toList].map MuscleElem.str))).1.status = 400 ↔
      ∃ m ∈ cleanNames asciiEngine [" chest".toList, "Abs".toList, "abs".toList], m ∉ validMuscles) ∧
    saveMuscles asciiEngine exEnv exDb { userId := 1, email := "a@b.com".toList, name := "A".toList }
        (some ([" wing".toList, "Abs".toList, "tail\u00a0".toList].map MuscleElem.str)) =
      ({ status := 400, body := .message "Invalid muscles: WING, TAIL".toList }, exDb) :=
  ⟨by decide, by decide,
    (save_muscles_validation asciiEngine exEnv exDb
      { userId := 1, email := "a@b.com".toList, name := "A".toList }
      [" chest".toList, "Abs".toList, "abs".toList] (by decide)).1,
    ((save_muscles_validation asciiEngine exEnv exDb
      { userId := 1, email := "a@b.com".toList, name := "A".toList }
      [" wing".toList, "Abs".toList, "tail\u00a0".toList] (by decide)).2.1
        ⟨"WING".toList, by decide, by decide⟩).trans (by decide)⟩

/-- Claim C17: from a store whose `MuscleSelection` documents have distinct
`_id` and at most one document per email, every sequence of
`POST /api/save-muscles` requests handled one after the other leaves at most
one document per email.  A request answered 201 for a user who has a document
replaces the `selectedMuscles` of that document by the cleaned list, with the
version key `__v` one higher when the list has changed, and leaves the number
and the other documents as they are; one answered 201 for a user without
document appends exactly one document, for that user, of version 0. -/
theorem one_selection_per_email (J : JwtCodec) (E : JsEngine) (db : Db)
    (hids : UniqueMuscleIds db) (hone : OneSelectionPerEmail db) :
    (∀ reqs, OneSelectionPerEmail (saveMusclesAll J E db reqs)) ∧
    (∀ (env : Env) (user : Identity) (muscles : List MuscleElem) (cleaned : List Str),
      cleanMuscles E muscles = .ok cleaned →
      (saveMuscles E env db user (some muscles)).1.status = 201 →
      ((∃ d ∈ db.muscleSelections, d.email = user.email) →
        (saveMuscles E env db user (some muscles)).2 =
          { db with muscleSelections := (db.muscleSelections.map
              (fun d => if d.email = user.email then
                  (if cleaned = d.selectedMuscles then d
                   else { d with selectedMuscles := cleaned, __v := d.__v + 1 })
                else d)) }) ∧
      ((∀ d ∈ db.muscleSelections, d.email ≠ user.email) →
        (saveMuscles E env db user (some muscles)).2 =
          { db with muscleSelections := (db.muscleSelections ++
              [{ _id := env.newId, email := user.email, selectedMuscles := cleaned,
                 createdAt := env.now, __v := 0 }]) })) := by
  constructor
  · intro reqs
    exact (saveMusclesAll_preserves J E reqs db hids hone).2
  · intro env user muscles cleaned hc h201
    rcases saveMuscles_step E env db user muscles cleaned hc hids hone with
      ⟨hn, _⟩ | ⟨_, hex, h⟩ | ⟨_, hfresh, h⟩
    · exact absurd h201 hn
    · refine ⟨fun _ => h, fun hno => ?_⟩
      obtain ⟨d, hd, hde⟩ := hex
      exact absurd hde (hno d hd)
    · refine ⟨fun hex => ?_, fun _ => h⟩
      obtain ⟨d, hd, hde⟩ := hex
      exact absurd hde (hfresh d hd).1

/-- Claim C17, witness: the sample store with one muscle selection. -/
theorem one_selection_per_email_witness :
    (∀ reqs, OneSelectionPerEmail (saveMusclesAll refCodec asciiEngine exDbMuscles reqs)) ∧
    (saveMuscles asciiEngine exEnv exDbMuscles { userId := 1, email := "a@b.com".toList, name := "A".toList }
        (some [.str "chest".toList])).2.muscleSelections =
      [{ _id := 5, email := "a@b.com".toList, selectedMuscles := ["CHEST".toList]
         createdAt := 900, __v := 1 }] ∧
    (saveMuscles asciiEngine exEnv exDbMuscles { userId := 2, email := "c@d.com".toList, name := "C".toList }
        (some [.str "chest".toList])).2.muscleSelections =
      [{ _id := 5, email := "a@b.com".toList, selectedMuscles := ["ABS".toList]
         createdAt := 900, __v := 0 },
       { _id := 1, email := "c@d.com".toList, selectedMuscles := ["CHEST".toList]
         createdAt := 1000, __v := 0 }] :=
  ⟨(one_selection_per_email refCodec asciiEngine exDbMuscles
      (by simp [UniqueMuscleIds, exDbMuscles]) (by simp [OneSelectionPerEmail, exDbMuscles])).1,
    by decide, by decide⟩

end MedicineApp
